import Mathlib

/-!
Shallow embedding of the benchctl workflow-execution engine (Go) in Lean 4.

The definitions below are translated from the repository's source:
  internal/run.go (the RunWorkflow / executeStages / buildEnvPrefix /
  appendStageMetadata / parsePID / shellQuote family, src/unnamed/part_018),
  internal/background.go (backgroundManager, outputFilename,
  collectStageOutputs), internal/execution/local.go and the ssh client
  (src/unnamed/part_017), internal/inspect.go (multiWriterFiltered).

External effects (the operating system, the ssh transport, the Go json
library) are modelled as explicit oracle parameters; machine state that the
code reads or writes (the file system, the run-metadata map, the event order
of a workflow) is passed explicitly.
-/

namespace Benchctl

/-! ### Go string primitives

Models of the Go standard-library string functions the engine uses.
`goIsSpace` models `unicode.IsSpace` on the Latin-1 range, which covers
every byte the engine ever feeds it (command output and path text).
-/

def goIsSpace (c : Char) : Bool :=
  c = ' ' || c = '\t' || c = '\n' || c = '\x0b' || c = '\x0c' || c = '\r' ||
    c.val = 133 || c.val = 160

/-- Model of Go `strings.TrimSpace` on the character list. -/
def trimSpaceList (l : List Char) : List Char :=
  ((l.dropWhile goIsSpace).reverse.dropWhile goIsSpace).reverse

/-- Model of Go `strings.TrimSpace`. -/
def trimSpace (s : String) : String :=
  String.mk (trimSpaceList s.data)

/-- Model of Go `strings.Fields` on the character list: maximal runs of
non-space characters. -/
def fieldsList : List Char → List (List Char)
  | [] => []
  | c :: rest =>
    if goIsSpace c then fieldsList rest
    else (c :: rest.takeWhile (fun d => !goIsSpace d)) ::
      fieldsList (rest.dropWhile (fun d => !goIsSpace d))
termination_by l => l.length
decreasing_by
  · simp only [List.length_cons]; omega
  · simp only [List.length_cons]
    exact Nat.lt_succ_of_le (List.dropWhile_sublist _).length_le

/-- Model of Go `strings.Fields`. -/
def fields (s : String) : List String :=
  (fieldsList s.data).map String.mk

/-- `parsePID` from internal/run.go: the first whitespace-separated token of
the launch output, or the empty string when there is none. -/
def parsePID (output : String) : String :=
  let trimmed := trimSpace output
  if trimmed = "" then ""
  else
    match fields trimmed with
    | [] => ""
    | f :: _ => f

/-- The per-character expansion performed by
Go `strings.ReplaceAll(cmd, "'", "'\"'\"'")`: the pattern is one character,
so the replacement acts independently on each character. -/
def escQuoteChar (c : Char) : List Char :=
  if c = '\'' then ['\'', '"', '\'', '"', '\''] else [c]

def escQuotes : List Char → List Char
  | [] => []
  | c :: rest => escQuoteChar c ++ escQuotes rest

/-- `shellQuote` from internal/run.go. -/
def shellQuote (cmd : String) : String :=
  if cmd = "" then "''"
  else "'" ++ String.mk (escQuotes cmd.data) ++ "'"

/-- Model of Go `filepath.Ext`, scanning from the end of the (reversed) path:
stop at a path separator, return from the final dot when one is found first.
`acc` holds the characters already passed, in path order. -/
def extFromRev (acc : List Char) : List Char → List Char
  | [] => []
  | c :: rest =>
    if c = '/' then []
    else if c = '.' then '.' :: acc
    else extFromRev (c :: acc) rest

/-- Go `filepath.Ext`. -/
def fileExt (p : String) : String :=
  String.mk (extFromRev [] p.data.reverse)

/-- Splitting a character list at a separator character (the behaviour of
Go `strings.Split` with a one-character separator). -/
def splitCharsOn (sep : Char) : List Char → List (List Char)
  | [] => [[]]
  | c :: rest =>
    let r := splitCharsOn sep rest
    if c = sep then [] :: r
    else (c :: r.headD []) :: r.tail

def splitSlash (p : String) : List String :=
  (splitCharsOn '/' p.data).map String.mk

/-- Go `strings.Join`. -/
def joinWith (sep : String) : List String → String
  | [] => ""
  | [x] => x
  | x :: xs => x ++ sep ++ joinWith sep xs

/-- Model of Go `filepath.Base` restricted to cleaned slash-separated paths:
the last slash-separated component. -/
def baseName (p : String) : String :=
  match (splitSlash p).getLast? with
  | some last => last
  | none => p

/-- Model of Go `filepath.Dir` restricted to cleaned slash-separated paths:
everything before the final slash (`"."` when there is no slash, `"/"` for a
file directly under the root). -/
def dirName (p : String) : String :=
  let comps := splitSlash p
  if comps.length ≤ 1 then "."
  else
    let front := comps.dropLast
    if front = [""] then "/" else joinWith "/" front

/-- Model of Go `filepath.Join` of a cleaned directory and a name. -/
def goJoin (dir name : String) : String :=
  dir ++ "/" ++ name

/-! ### Configuration data model

The `config` package structures, restricted to the fields the claims touch
(data-schema fields only feed log warnings and are omitted).
-/

structure Output where
  name : String
  remotePath : String
  localPath : String := ""
  deriving Repr, DecidableEq

structure HealthCheck where
  hcType : String
  target : String
  timeout : String
  retries : Int
  deriving Repr, DecidableEq

structure Stage where
  name : String
  host : String := ""
  hosts : List String := []
  command : String := ""
  script : String := ""
  shell : String := ""
  appendMetadata : Bool := false
  background : Bool := false
  skip : Bool := false
  healthCheck : Option HealthCheck := none
  outputs : List Output := []
  deriving Repr, DecidableEq

structure Host where
  ip : String := ""
  deriving Repr, DecidableEq

structure BenchmarkCfg where
  name : String
  outputDir : String
  shell : String := ""
  deriving Repr, DecidableEq

structure Config where
  benchmark : BenchmarkCfg
  hosts : List (String × Host)
  stages : List Stage
  deriving Repr, DecidableEq

/-- `resolveStageHosts` from internal/run.go. -/
def resolveStageHosts (stage : Stage) : List String :=
  if stage.hosts.length > 0 then stage.hosts
  else if trimSpace stage.host ≠ "" then [stage.host]
  else ["local"]

/-- `outputFilename` from internal/background.go. -/
def outputFilename (output : Output) (stage : Stage) (hostAlias : String) :
    String :=
  let ext := fileExt output.remotePath
  if stage.hosts.length > 0 then output.name ++ "__" ++ hostAlias ++ ext
  else output.name ++ ext

/-! ### Environment exports (buildEnvPrefix, internal/run.go)

`os.Getenv(EnvConfigPath)` and `os.Executable()` are inputs from the
process environment; they are passed as the `configPath` and `exePath`
parameters. The Go `map[string]string` of user variables is modelled as an
association list whose keys are the map's keys. The name `buildEnvPfx`
stands for the source's buildEnvPrefix.
-/

def envRunID : String := "BENCHCTL_RUN_ID"

def envOutputDir : String := "BENCHCTL_OUTPUT_DIR"

def envRunDir : String := "BENCHCTL_RUN_DIR"

def envConfigPath : String := "BENCHCTL_CONFIG_PATH"

def envBenchctl : String := "BENCHCTL_BIN"

/-- Lexicographic byte order on character lists: Go string comparison as
`sort.Strings` uses it (identical to code-point order on the ASCII keys the
engine handles). -/
def charListLe : List Char → List Char → Bool
  | [], _ => true
  | _ :: _, [] => false
  | c :: cs, d :: ds => if c = d then charListLe cs ds else decide (c < d)

def strLeB (a b : String) : Bool := charListLe a.data b.data

/-- Sorting model of Go `sort.Strings` (insertion sort; for the duplicate
free key lists a Go map yields, any correct sort produces this same sorted
arrangement). -/
def insertSorted (x : String) : List String → List String
  | [] => [x]
  | y :: ys => if strLeB x y then x :: y :: ys else y :: insertSorted x ys

def sortStrings (l : List String) : List String := l.foldr insertSorted []

/-- The key shape accepted by the CLI's `--environment` flag
(`envKeyPattern` in cmd/benchctl/main.go): a letter or underscore followed
by letters, digits and underscores. -/
def envKeyValid (s : String) : Bool :=
  match s.data with
  | [] => false
  | c :: rest =>
    (c.isAlpha || c = '_') && rest.all (fun d => d.isAlphanum || d = '_')

/-- The key/value pairs exported by buildEnvPrefix, in emission order: the
three unconditional keys, the two conditional ones, then the user keys in
`sort.Strings` order. Each pair `(k, v)` is emitted as `k=shellQuote v`. -/
def buildEnvPairs (runID runDir : String) (cfg : Config)
    (envVars : List (String × String)) (configPath exePath : String) :
    List (String × String) :=
  ([(envRunID, runID), (envOutputDir, cfg.benchmark.outputDir),
      (envRunDir, runDir)] ++
    (if trimSpace configPath ≠ "" then [(envConfigPath, configPath)] else []) ++
    (if trimSpace exePath ≠ "" then [(envBenchctl, exePath)] else [])) ++
  ((sortStrings (envVars.map Prod.fst)).map
    (fun k => (k, ((envVars.lookup k).getD ""))))

/-- buildEnvPrefix from internal/run.go: the serialized export preamble. -/
def buildEnvPfx (runID runDir : String) (cfg : Config)
    (envVars : List (String × String)) (configPath exePath : String) :
    String :=
  "export " ++
    joinWith " "
      ((buildEnvPairs runID runDir cfg envVars configPath exePath).map
        (fun kv => kv.1 ++ "=" ++ shellQuote kv.2)) ++ "; "

/-! ### Writers and multiWriterFiltered (internal/execution)

A `Writer` models a non-nil Go `io.Writer` interface value of pointer shape
(every writer the engine passes is one: `*os.File` console sinks and the
`*captureBuffer`): `ptr` is the value `reflect.ValueOf(w).Pointer()` sees,
`fd` is the underlying OS file descriptor when the writer is an `*os.File`
(`none` for the in-memory capture buffer).
-/

structure Writer where
  ptr : Nat
  fd : Option Nat := none
  deriving Repr, DecidableEq

/-- The pointer-identity filtering loop of `multiWriterFiltered`
(internal/inspect.go): nil writers are dropped and a writer whose pointer
was already seen is skipped. The resulting list is the set of writers the
returned `io.MultiWriter` writes each byte to, in order. -/
def filterDedup (seen : List Nat) : List (Option Writer) → List Writer
  | [] => []
  | none :: rest => filterDedup seen rest
  | some w :: rest =>
    if w.ptr ∈ seen then filterDedup seen rest
    else w :: filterDedup (w.ptr :: seen) rest

def multiWriterFiltered (writers : List (Option Writer)) : List Writer :=
  filterDedup [] writers

/-- How many times one byte of a stream fanned out by `ws` reaches the OS
file descriptor `d`. -/
def writesToFd (ws : List Writer) (d : Nat) : Nat :=
  (ws.filter (fun w => w.fd = some d)).length

/-- How many times one byte of a stream fanned out by `ws` reaches the
writer object with pointer `p`. -/
def writesToPtr (ws : List Writer) (p : Nat) : Nat :=
  (ws.filter (fun w => w.ptr = p)).length

/-- The combined destination built by the PTY paths (`runLocalWithPTY` in
internal/execution/local.go and the `UsePTY` branch of
`runStreamingCommand` in the ssh client): stdout sink, stderr sink and the
capture buffer fanned into one filtered multi-writer. -/
def ptyCombinedDest (stdout stderr capture : Option Writer) : List Writer :=
  multiWriterFiltered [stdout, stderr, capture]

/-- The per-stream destinations built by `runLocalPiped` and the non-PTY
branch of the ssh `runStreamingCommand`. -/
def pipedStdoutDest (stdout capture : Option Writer) : List Writer :=
  multiWriterFiltered [stdout, capture]

def pipedStderrDest (stderr capture : Option Writer) : List Writer :=
  multiWriterFiltered [stderr, capture]

/-! ### RunCommand request guard (internal/execution/local.go, ssh client)

Only the part of `RunCommand` up to and including the empty-command guard is
deterministic engine logic; everything past it talks to the operating
system or the ssh transport, modelled by the `runs` oracle of `CmdEnv`.
`events` records the externally visible actions the call performed.
-/

structure CommandRequest where
  command : String
  stdout : Option Writer := none
  stderr : Option Writer := none
  hasStdin : Bool := false
  usePTY : Bool := false
  disableCapture : Bool := false
  deriving Repr, DecidableEq

structure CommandResult where
  output : String := ""
  exitCode : Int := 0
  deriving Repr, DecidableEq

inductive CmdEvent where
  | startedProcess
  | openedSession
  deriving Repr, DecidableEq

structure RunOutcome where
  result : CommandResult
  error : Option String
  events : List CmdEvent
  deriving Repr, DecidableEq

/-- Oracle for what the operating system / remote host does with a command
that actually starts: the resulting combined output, exit code and
transport error. -/
structure CmdEnv where
  runs : String → CommandResult × Option String
  sessionError : Option String := none

/-- `localClient.RunCommand`: the empty-command guard, then dispatch to the
subprocess (oracle). -/
def localRunCommand (env : CmdEnv) (req : CommandRequest) : RunOutcome :=
  if trimSpace req.command = "" then
    { result := { output := "", exitCode := -1 },
      error := some "empty command", events := [] }
  else
    let r := env.runs req.command
    { result := r.1, error := r.2, events := [.startedProcess] }

/-- `sshClient.RunCommand`: the empty-command guard, then `NewSession` and
dispatch over the transport (oracle). -/
def sshRunCommand (env : CmdEnv) (req : CommandRequest) : RunOutcome :=
  if trimSpace req.command = "" then
    { result := { output := "", exitCode := -1 },
      error := some "empty command", events := [] }
  else
    match env.sessionError with
    | some e =>
      { result := { output := "", exitCode := -1 },
        error := some ("error creating new session: " ++ e), events := [] }
    | none =>
      let r := env.runs req.command
      { result := r.1, error := r.2, events := [.openedSession] }

/-! ### File copy from host (Scp of both client variants)

The local machine's file system is a set of existing directories plus a map
from path to file content; the host side is the map `hostFiles`. `setKey`
models writing (creating or truncating-and-rewriting) one file.
-/

structure FileSys where
  dirs : List String
  files : List (String × String)
  deriving Repr, DecidableEq

/-- Overwriting insert into an association list, the model of a Go map
assignment `m[k] = v`: replaces the binding when the key is present,
appends otherwise. -/
def setKey : List (String × String) → String → String →
    List (String × String)
  | [], k, v => [(k, v)]
  | kv :: rest, k, v =>
    if kv.1 = k then (k, v) :: rest else kv :: setKey rest k v

/-- All slash-separated prefixes of a path: the directories
`os.MkdirAll` guarantees to exist afterwards. -/
def pathPrefixes (p : String) : List String :=
  let comps := splitSlash p
  (List.range comps.length).map
    (fun i => joinWith "/" (comps.take (i + 1)))

/-- `localClient.Scp` (internal/execution/local.go): `MkdirAll` on the
destination's directory, then `cp remotePath localPath`. Returns the new
local file system and the error, if any. -/
def localScp (hostFiles : List (String × String)) (fs : FileSys)
    (remotePath localPath : String) : FileSys × Option String :=
  let fs1 : FileSys :=
    { fs with dirs := fs.dirs ++ pathPrefixes (dirName localPath) }
  match hostFiles.lookup remotePath with
  | none => (fs1, some "cp: remote path does not exist")
  | some content =>
    ({ fs1 with files := setKey fs1.files localPath content }, none)

/-- `sshClient.Scp` (ssh client source): `os.Create(localPath)` — which
fails when the destination's directory does not exist, and otherwise
creates or truncates the file — then `CopyFromRemote` into it. -/
def sshScp (hostFiles : List (String × String)) (fs : FileSys)
    (remotePath localPath : String) : FileSys × Option String :=
  if dirName localPath ∈ fs.dirs then
    let fs1 : FileSys := { fs with files := setKey fs.files localPath "" }
    match hostFiles.lookup remotePath with
    | none => (fs1, some "error copying file: remote path does not exist")
    | some content =>
      ({ fs1 with files := setKey fs1.files localPath content }, none)
  else (fs, some "error creating local file: no such file or directory")

/-! ### Stage metadata harvesting (appendStageMetadata, internal/run.go)

`JVal` is the shape of a value produced by Go's `encoding/json` decoder
into `any` with `UseNumber()`: `json.Number` (kept with its source text),
`string`, `bool`, `nil`, `[]any` and `map[string]any`. The decoder itself
is the Go standard library, abstracted as the oracle
`dec : String → Except String (List (String × JVal))` that yields the
decoded top-level object's bindings (a Go map: keys distinct, one binding
per key) or the decode error text. Nested objects are represented with
their fields already in `json.Marshal`'s canonical sorted-key order, since
a Go map carries no order of its own.
-/

inductive JVal where
  | num (srcText : String)
  | str (s : String)
  | jbool (b : Bool)
  | jnull
  | arr (elems : List JVal)
  | obj (fields : List (String × JVal))
  deriving Repr

/-- JSON string escaping as `json.Marshal` performs it on the characters
the engine's metadata can contain (the HTML-escaping of angle brackets is
not modelled). -/
def jsonEscapeChar (c : Char) : List Char :=
  if c = '"' then ['\\', '"']
  else if c = '\\' then ['\\', '\\']
  else if c = '\n' then ['\\', 'n']
  else if c = '\r' then ['\\', 'r']
  else if c = '\t' then ['\\', 't']
  else [c]

def jsonQuote (s : String) : String :=
  "\"" ++ String.mk (s.data.foldr (fun c acc => jsonEscapeChar c ++ acc) []) ++
    "\""

/-- Model of `json.Marshal` on a decoded value. -/
def jsonSerialize : JVal → String
  | .num t => t
  | .str s => jsonQuote s
  | .jbool b => if b then "true" else "false"
  | .jnull => "null"
  | .arr es =>
    "[" ++
      String.intercalate ","
        (es.attach.map (fun e => jsonSerialize e.1)) ++ "]"
  | .obj fs =>
    "\x7b" ++
      String.intercalate ","
        (fs.attach.map
          (fun kv => jsonQuote kv.1.1 ++ ":" ++ jsonSerialize kv.1.2)) ++
      "\x7d"
decreasing_by
  all_goals
    first
      | (have h := List.sizeOf_lt_of_mem e.2
         simp only [JVal.arr.sizeOf_spec]
         omega)
      | (have h := List.sizeOf_lt_of_mem kv.2
         have h2 : sizeOf kv.val.2 ≤ sizeOf kv.val := by
           rcases kv with ⟨⟨a, b⟩, hm⟩
           simp only [Prod.mk.sizeOf_spec]
           omega
         simp only [JVal.obj.sizeOf_spec]
         omega)

/-- The per-value stringification of the `switch` in appendStageMetadata:
a `json.Number` keeps its source text, a string is used as-is, anything
else is re-marshalled. -/
def stringifyJVal : JVal → String
  | .num t => t
  | .str s => s
  | v => jsonSerialize v

/-- appendStageMetadata from internal/run.go, over the decode oracle `dec`:
on decode failure an error (and the untouched map, which the caller keeps);
on success the decoded bindings merged into the custom map, overwriting
existing keys. -/
def appendStageMetadata (dec : String → Except String (List (String × JVal)))
    (stage : Stage) (custom : List (String × String)) (output : String) :
    Except String (List (String × String)) :=
  match dec output with
  | .error e =>
    .error ("stage " ++ stage.name ++
      " append_metadata enabled but output is not valid JSON: " ++ e)
  | .ok out =>
    .ok (out.foldl (fun m kv => setKey m kv.1 (stringifyJVal kv.2)) custom)

/-! ### Run id allocation (generateRunID, internal/run.go)

`statExists` is the oracle for `os.Stat` on a candidate run directory
(`true` when the directory exists; a stat error other than not-exists also
keeps the Go loop going and is covered by `true`). The Go loop is unbounded;
`fuel` bounds the embedding, and the theorems require fuel at least the
answer, which always holds for a finite directory layout. -/

def generateRunIDAux (statExists : String → Bool) (outputDir : String) :
    Nat → Nat → Option String
  | 0, _ => none
  | fuel + 1, runNum =>
    let runID := Nat.repr runNum
    if statExists (goJoin outputDir runID) then
      generateRunIDAux statExists outputDir fuel (runNum + 1)
    else some runID

def generateRunID (statExists : String → Bool) (outputDir : String)
    (fuel : Nat) : Option String :=
  generateRunIDAux statExists outputDir fuel 1

/-! ### The workflow interpreter (RunWorkflow / executeStages, internal/run.go)

The engine's interaction with hosts and the local machine is captured in a
trace of events; everything the operating system or a host decides is an
oracle field of `WfEnv`.  Oracles that the claims never exercise on their
interesting side default to success but remain explicit parameters:
`healthErr` stands for the outcome of `runHealthCheck` (whose internals —
duration parsing and `CallWithRetry` over `CheckPort` — are host behaviour),
`plotsErr` for `generatePlotsForRun`, `saveErr` for `saveMetadata`'s file
write. -/

inductive Ev where
  | runCmd (stageName hostAlias : String)
  | bgLaunch (stageName hostAlias : String)
  | bgAdd (stageName hostAlias pid : String)
  | collect (stageName hostAlias outputName : String)
  | stopRecord (stageName pid : String)
  | stopAllCalled
  | wroteMetadata
  | fatalExit (msg : String)
  deriving Repr, DecidableEq

structure WfEnv where
  statExists : String → Bool := fun _ => false
  configPath : String := ""
  exePath : String := ""
  openErr : String → Option String := fun _ => none
  runCmd : String → String → CommandResult × Option String
  uploadErr : String → String → Option String := fun _ _ => none
  absPath : String → String := id
  decode : String → Except String (List (String × JVal)) := fun _ =>
    .error "unexpected end of JSON input"
  healthErr : String → Option String := fun _ => none
  scpErr : String → String → Option String := fun _ _ => none
  plotsErr : Option String := none
  saveErr : Option String := none
  processAlive : String → Except String Bool := fun _ => .ok false

/-- `openExecutionClient` (internal/background.go): a host with blank IP is
served by `NewLocalClient`, which cannot fail; otherwise `NewSSHClient` may
fail to connect (oracle, keyed by host alias). -/
def openClientErr (env : WfEnv) (hostAlias : String) (host : Host) :
    Option String :=
  if trimSpace host.ip = "" then none else env.openErr hostAlias

/-- A client `RunCommand` as the stage executor sees it: the empty-command
guard of both client variants, then the host's behaviour (oracle). -/
def wfRunCommand (env : WfEnv) (hostAlias command : String) :
    CommandResult × Option String :=
  if trimSpace command = "" then
    ({ output := "", exitCode := -1 }, some "empty command")
  else env.runCmd hostAlias command

def defaultShell : String := "bash -lic"

/-- `resolveStageShell` from internal/run.go. -/
def resolveStageShell (cfg : Config) (stage : Stage) : String :=
  let shell := trimSpace stage.shell
  let shell := if shell = "" then trimSpace cfg.benchmark.shell else shell
  if shell = "" then defaultShell else shell

/-- `wrapWithShell` from internal/run.go. -/
def wrapWithShell (command shell : String) : String :=
  let shell := trimSpace shell
  let shell := if shell = "" then defaultShell else shell
  shell ++ " " ++ shellQuote command

/-- `prepareStageCommand` from internal/run.go. `env.absPath` stands for
the `filepath.IsAbs`/`filepath.Abs` resolution of the script path. -/
def prepareStageCommand (env : WfEnv) (stage : Stage) (host : Host)
    (runID : String) : Except String String :=
  if trimSpace stage.command ≠ "" then .ok stage.command
  else if trimSpace stage.script = "" then
    .error ("stage " ++ stage.name ++ " has no command or script")
  else if trimSpace host.ip = "" then .ok ("bash ./" ++ stage.script)
  else
    let localScriptPath := env.absPath stage.script
    let remoteScriptPath :=
      "/tmp/benchctl-" ++ runID ++ "-" ++ baseName localScriptPath
    match env.uploadErr localScriptPath remoteScriptPath with
    | some e =>
      .error ("failed to upload script for stage " ++ stage.name ++ ": " ++ e)
    | none =>
      .ok ("chmod +x '" ++ remoteScriptPath ++ "' && bash '" ++
        remoteScriptPath ++ "'")

/-- `startBackgroundStage` from internal/run.go: launch the detached
process group and take the PID from the launch output. -/
def startBackgroundStage (env : WfEnv) (hostAlias envPfx commandBody : String)
    (stage : Stage) : Except String String :=
  let backgroundCommand :=
    envPfx ++ " setsid sh -c " ++ shellQuote commandBody ++
      " >/dev/null 2>&1 & echo $!"
  let r := wfRunCommand env hostAlias backgroundCommand
  match r.2 with
  | some e =>
    .error ("stage " ++ stage.name ++ " failed to start background command: "
      ++ e)
  | none =>
    let pid := parsePID r.1.output
    if pid = "" then
      .error ("stage " ++ stage.name ++
        " failed to start background command: pid not captured")
    else .ok pid

/-- A record of the background manager (internal/background.go). -/
structure BgRec where
  stage : Stage
  hostAlias : String
  host : Host
  pid : String
  deriving Repr, DecidableEq

/-- `collectStageOutputs` from internal/background.go: copy each declared
output to `runDir/outputFilename`, stopping at the first failure. -/
def collectOutputsLoop (env : WfEnv) (stage : Stage) (hostAlias : String) :
    List Output → List Ev × Option String
  | [] => ([], none)
  | output :: rest =>
    let ev := Ev.collect stage.name hostAlias output.name
    match env.scpErr hostAlias output.remotePath with
    | some e =>
      ([ev], some ("failed to collect output " ++ output.name ++
        " for stage " ++ stage.name ++ ": " ++ e))
    | none =>
      let r := collectOutputsLoop env stage hostAlias rest
      (ev :: r.1, r.2)

/-- One host iteration of the stage loop in `executeStages`: returns the
events, the updated custom-metadata map, the background record added (if
any) and the error that aborts the workflow (if any). -/
def runStageOnHost (env : WfEnv) (cfg : Config) (envPfx runID : String)
    (stage : Stage) (hostIndex : Nat) (hostAlias : String)
    (custom : List (String × String)) :
    List Ev × List (String × String) × Option BgRec × Option String :=
  let hostLookup := cfg.hosts.lookup hostAlias
  if hostLookup = none ∧ hostAlias ≠ "local" then
    ([], custom, none,
      some ("stage " ++ stage.name ++ " references unknown host " ++
        hostAlias))
  else
    let host := hostLookup.getD {}
    match openClientErr env hostAlias host with
    | some e =>
      ([], custom, none,
        some ("error creating execution client for stage " ++ stage.name ++
          ": " ++ e))
    | none =>
      match prepareStageCommand env stage host runID with
      | .error e => ([], custom, none, some e)
      | .ok body =>
        let commandBody := wrapWithShell body (resolveStageShell cfg stage)
        if stage.background then
          match startBackgroundStage env hostAlias envPfx commandBody stage
          with
          | .error e =>
            ([Ev.bgLaunch stage.name hostAlias], custom, none, some e)
          | .ok pid =>
            ([Ev.bgLaunch stage.name hostAlias,
              Ev.bgAdd stage.name hostAlias pid], custom,
              some (BgRec.mk stage hostAlias host pid), none)
        else
          let r := wfRunCommand env hostAlias (envPfx ++ commandBody)
          let cmdErr :=
            match r.2 with
            | some e => some e
            | none =>
              if r.1.exitCode ≠ 0 then
                some ("command exited with code " ++ toString r.1.exitCode)
              else none
          match cmdErr with
          | some e =>
            ([Ev.runCmd stage.name hostAlias], custom, none,
              some ("stage " ++ stage.name ++ " failed: " ++ e ++
                " (exit code: " ++ toString r.1.exitCode ++ ")"))
          | none =>
            let custom1 :=
              if stage.appendMetadata ∧ hostIndex = 0 then
                match appendStageMetadata env.decode stage custom r.1.output
                with
                | .error _ => custom
                | .ok m => m
              else custom
            match stage.healthCheck with
            | some _ =>
              match env.healthErr stage.name with
              | some e => ([Ev.runCmd stage.name hostAlias], custom1, none,
                  some e)
              | none =>
                if stage.outputs.length > 0 then
                  let c := collectOutputsLoop env stage hostAlias
                    stage.outputs
                  (Ev.runCmd stage.name hostAlias :: c.1, custom1, none, c.2)
                else ([Ev.runCmd stage.name hostAlias], custom1, none, none)
            | none =>
              if stage.outputs.length > 0 then
                let c := collectOutputsLoop env stage hostAlias stage.outputs
                (Ev.runCmd stage.name hostAlias :: c.1, custom1, none, c.2)
              else ([Ev.runCmd stage.name hostAlias], custom1, none, none)

/-- The fan-out over a stage's resolved host list, sequential with
fail-fast: the first erring host aborts the remaining hosts. -/
def runStageHosts (env : WfEnv) (cfg : Config) (envPfx runID : String)
    (stage : Stage) (hostIndex : Nat) (custom : List (String × String)) :
    List String → List Ev × List (String × String) × List BgRec ×
      Option String
  | [] => ([], custom, [], none)
  | hostAlias :: rest =>
    let r := runStageOnHost env cfg envPfx runID stage hostIndex hostAlias
      custom
    match r.2.2.2 with
    | some e => (r.1, r.2.1, (r.2.2.1.map (fun b => [b])).getD [], some e)
    | none =>
      let nxt := runStageHosts env cfg envPfx runID stage (hostIndex + 1)
        r.2.1 rest
      (r.1 ++ nxt.1, nxt.2.1, (r.2.2.1.map (fun b => [b])).getD [] ++
        nxt.2.2.1, nxt.2.2.2)

/-- The stage loop of `executeStages`: skipped stages are passed over,
the first erring stage aborts the rest. -/
def execStagesLoop (env : WfEnv) (cfg : Config) (envPfx runID : String)
    (custom : List (String × String)) :
    List Stage → List Ev × List (String × String) × List BgRec ×
      Option String
  | [] => ([], custom, [], none)
  | stage :: rest =>
    if stage.skip then execStagesLoop env cfg envPfx runID custom rest
    else
      let r := runStageHosts env cfg envPfx runID stage 0 custom
        (resolveStageHosts stage)
      match r.2.2.2 with
      | some e => (r.1, r.2.1, r.2.2.1, some e)
      | none =>
        let nxt := execStagesLoop env cfg envPfx runID r.2.1 rest
        (r.1 ++ nxt.1, nxt.2.1, r.2.2.1 ++ nxt.2.2.1, nxt.2.2.2)

/-- `executeStages` from internal/run.go. -/
def executeStages (env : WfEnv) (cfg : Config) (runID runDir : String)
    (envVars : List (String × String)) (custom : List (String × String)) :
    List Ev × List (String × String) × List BgRec × Option String :=
  if cfg.stages = [] then ([], custom, [], none)
  else
    let envPfx := buildEnvPfx runID runDir cfg envVars env.configPath
      env.exePath
    execStagesLoop env cfg envPfx runID custom cfg.stages

/-- `terminatePID` (internal/background.go), reduced to its error behaviour:
the TERM and KILL signals and the grace-period waits only log warnings;
the one error source is `processAlive` failing (a transport error). -/
def terminatePIDErr (env : WfEnv) (stageName pid : String) : Option String :=
  match env.processAlive pid with
  | .error e => some ("background stage " ++ stageName ++ ": " ++ e)
  | .ok _ => none

/-- `backgroundManager.stopStage`: reopen a client, terminate the process
group, then best-effort collect declared outputs (collection failure is a
warning, not an error). -/
def stopStage (env : WfEnv) (record : BgRec) : List Ev × Option String :=
  let ev := Ev.stopRecord record.stage.name record.pid
  match openClientErr env record.hostAlias record.host with
  | some e =>
    ([ev], some ("background stage " ++ record.stage.name ++ ": " ++ e))
  | none =>
    match terminatePIDErr env record.stage.name record.pid with
    | some e => ([ev], some e)
    | none =>
      if record.stage.outputs.length > 0 then
        let c := collectOutputsLoop env record.stage record.hostAlias
          record.stage.outputs
        (ev :: c.1, none)
      else ([ev], none)

/-- `backgroundManager.StopAll`: every record is attempted; the per-record
errors are accumulated (`errors.Join`) rather than returned one at a
time. -/
def stopAllModel (env : WfEnv) : List BgRec → List Ev × List String
  | [] => ([], [])
  | r :: rs =>
    let s := stopStage env r
    let nxt := stopAllModel env rs
    (s.1 ++ nxt.1, (match s.2 with | some e => [e] | none => []) ++ nxt.2)

structure WfResult where
  events : List Ev
  fatalMsg : Option String
  metadataWritten : Bool
  runDirCreated : Bool
  runID : Option String
  custom : List (String × String)
  bgRecords : List BgRec
  deriving Repr

/-- `RunWorkflow` from internal/run.go: allocate the run id and directory,
execute the stages, always give the background manager its `StopAll` turn,
then surface the stage error (fatal, before plots and metadata), else stop
errors, else render plots and persist `metadata.json`. `MkdirAll` on the
fresh run directory is modelled as succeeding. -/
def runWorkflowModel (env : WfEnv) (cfg : Config)
    (customMetadata envVars : List (String × String)) (fuel : Nat) :
    WfResult :=
  match generateRunID env.statExists cfg.benchmark.outputDir fuel with
  | none =>
    { events := [Ev.fatalExit "Failed to generate run ID"],
      fatalMsg := some "Failed to generate run ID",
      metadataWritten := false, runDirCreated := false, runID := none,
      custom := customMetadata, bgRecords := [] }
  | some runID =>
    let runDir := goJoin cfg.benchmark.outputDir runID
    let r := executeStages env cfg runID runDir envVars customMetadata
    let stop := stopAllModel env r.2.2.1
    let evs := r.1 ++ [Ev.stopAllCalled] ++ stop.1
    match r.2.2.2 with
    | some e =>
      let msg := "workflow failed: " ++ e
      { events := evs ++ [Ev.fatalExit msg], fatalMsg := some msg,
        metadataWritten := false, runDirCreated := true,
        runID := some runID, custom := r.2.1, bgRecords := r.2.2.1 }
    | none =>
      if stop.2 ≠ [] then
        let msg := "failed to stop background stages: " ++
          joinWith "\n" stop.2
        { events := evs ++ [Ev.fatalExit msg], fatalMsg := some msg,
          metadataWritten := false, runDirCreated := true,
          runID := some runID, custom := r.2.1, bgRecords := r.2.2.1 }
      else
        match env.plotsErr with
        | some e =>
          { events := evs ++ [Ev.fatalExit e], fatalMsg := some e,
            metadataWritten := false, runDirCreated := true,
            runID := some runID, custom := r.2.1, bgRecords := r.2.2.1 }
        | none =>
          match env.saveErr with
          | some e =>
            { events := evs ++ [Ev.fatalExit e], fatalMsg := some e,
              metadataWritten := false, runDirCreated := true,
              runID := some runID, custom := r.2.1, bgRecords := r.2.2.1 }
          | none =>
            { events := evs ++ [Ev.wroteMetadata], fatalMsg := none,
              metadataWritten := true, runDirCreated := true,
              runID := some runID, custom := r.2.1, bgRecords := r.2.2.1 }

/-- What happens to the run's custom map at the call site of
appendStageMetadata (`executeStages`): the new map on success, the old map
untouched when the stage output did not decode. -/
def appendStageMetadataEffect
    (dec : String → Except String (List (String × JVal))) (stage : Stage)
    (custom : List (String × String)) (output : String) :
    List (String × String) :=
  match appendStageMetadata dec stage custom output with
  | .error _ => custom
  | .ok m => m

/-! ### A POSIX-shell word reader

Specification-side device used to state what "shell-quoted" guarantees:
reading one word the way a POSIX shell does (single quotes literal until
the closing quote, double quotes literal for the characters `shellQuote`
emits, everything else literal) recovers the original value. -/

inductive ShMode where
  | plain
  | single
  | double
  deriving Repr, DecidableEq

def shEval : ShMode → List Char → Option (List Char)
  | .plain, [] => some []
  | .plain, c :: rest =>
    if c = '\'' then shEval .single rest
    else if c = '"' then shEval .double rest
    else (shEval .plain rest).map (fun l => c :: l)
  | .single, [] => none
  | .single, c :: rest =>
    if c = '\'' then shEval .plain rest
    else (shEval .single rest).map (fun l => c :: l)
  | .double, [] => none
  | .double, c :: rest =>
    if c = '"' then shEval .plain rest
    else (shEval .double rest).map (fun l => c :: l)

def shellUnquote (s : String) : Option String :=
  (shEval .plain s.data).map String.mk

/-! ### Concrete fixtures

Inputs used by the counterexamples and witnesses below. `cfgC3`/`envC3`
realise the spec's multi-host fail-fast scenario: one stage fanning out
over hosts A, B, C whose command exits 0 on A and 1 on B. -/

def stageC3 : Stage :=
  { name := "s1", hosts := ["hostA", "hostB", "hostC"],
    command := "run-bench" }

def cfgC3 : Config :=
  { benchmark := { name := "bench", outputDir := "out" },
    hosts := [("hostA", {}), ("hostB", {}), ("hostC", {})],
    stages := [stageC3] }

def envC3 : WfEnv :=
  { runCmd := fun h _ =>
      if h = "hostB" then ({ output := "", exitCode := 1 }, none)
      else ({ output := "", exitCode := 0 }, none) }

def stageHostsOne : Stage := { name := "s", hosts := ["A"] }

def stageHostSingular : Stage := { name := "s", host := "A" }

def outC2 : Output := { name := "o", remotePath := "r.csv" }

def cfgC5 : Config :=
  { benchmark := { name := "b", outputDir := "out" }, hosts := [],
    stages := [] }

def fsC7 : FileSys := { dirs := ["/run"], files := [] }

def hostFilesC7 : List (String × String) := [("/r.csv", "data")]

/-! ## Helper lemmas -/

theorem charListLe_trans : ∀ a b c, charListLe a b = true →
    charListLe b c = true → charListLe a c = true := by
  intro a
  induction a with
  | nil => intro b c _ _; rfl
  | cons x xs ih =>
    intro b c hab hbc
    cases b with
    | nil => simp [charListLe] at hab
    | cons y ys =>
      cases c with
      | nil => simp [charListLe] at hbc
      | cons z zs =>
        simp only [charListLe] at hab hbc ⊢
        by_cases hxy : x = y
        · subst hxy
          by_cases hyz : x = z
          · subst hyz
            simp only [if_pos rfl] at hab hbc ⊢
            exact ih _ _ hab hbc
          · simp only [if_pos rfl] at hab
            simp only [if_neg hyz] at hbc ⊢
            exact hbc
        · by_cases hyz : y = z
          · subst hyz
            simp only [if_neg hxy] at hab ⊢
            exact hab
          · simp only [if_neg hxy] at hab
            simp only [if_neg hyz] at hbc
            have hlt : x < z :=
              lt_trans (by simpa using hab) (by simpa using hbc)
            simp only [if_neg (ne_of_lt hlt)]
            simpa using hlt

theorem charListLe_total : ∀ a b, charListLe a b = true ∨
    charListLe b a = true := by
  intro a
  induction a with
  | nil => intro b; left; rfl
  | cons x xs ih =>
    intro b
    cases b with
    | nil => right; rfl
    | cons y ys =>
      simp only [charListLe]
      by_cases hxy : x = y
      · subst hxy
        simp only [if_pos rfl]
        exact ih ys
      · rcases lt_or_gt_of_ne hxy with h | h
        · left
          simp only [if_neg hxy]
          simpa using h
        · right
          simp only [if_neg (Ne.symm hxy)]
          simpa using h

theorem strLeB_trans (a b c : String) (h1 : strLeB a b = true)
    (h2 : strLeB b c = true) : strLeB a c = true :=
  charListLe_trans _ _ _ h1 h2

theorem strLeB_total (a b : String) : strLeB a b = true ∨
    strLeB b a = true :=
  charListLe_total _ _

theorem insertSorted_perm (x : String) (l : List String) :
    List.Perm (insertSorted x l) (x :: l) := by
  induction l with
  | nil => rfl
  | cons y ys ih =>
    by_cases h : strLeB x y
    · simp [insertSorted, h]
    · simp only [insertSorted, if_neg h]
      exact List.Perm.trans (List.Perm.cons y ih) (List.Perm.swap x y ys)

theorem sortStrings_perm (l : List String) :
    List.Perm (sortStrings l) l := by
  induction l with
  | nil => rfl
  | cons x xs ih =>
    exact List.Perm.trans (insertSorted_perm x _) (List.Perm.cons x ih)

theorem insertSorted_pairwise (x : String) (l : List String)
    (h : l.Pairwise (fun a b => strLeB a b = true)) :
    (insertSorted x l).Pairwise (fun a b => strLeB a b = true) := by
  induction l with
  | nil => simp [insertSorted]
  | cons y ys ih =>
    rcases List.pairwise_cons.mp h with ⟨hy, hys⟩
    by_cases hxy : strLeB x y
    · simp only [insertSorted, if_pos hxy]
      refine List.pairwise_cons.mpr ⟨?_, h⟩
      intro z hz
      rcases List.mem_cons.mp hz with rfl | hz
      · exact hxy
      · exact strLeB_trans _ _ _ hxy (hy z hz)
    · simp only [insertSorted, if_neg hxy]
      refine List.pairwise_cons.mpr ⟨?_, ih hys⟩
      intro z hz
      have hz2 := (insertSorted_perm x ys).mem_iff.mp hz
      rcases List.mem_cons.mp hz2 with rfl | hz3
      · rcases strLeB_total y z with h1 | h1
        · exact h1
        · exact absurd h1 (by simpa using hxy)
      · exact hy z hz3

theorem sortStrings_pairwise (l : List String) :
    (sortStrings l).Pairwise (fun a b => strLeB a b = true) := by
  induction l with
  | nil => simp [sortStrings]
  | cons x xs ih => exact insertSorted_pairwise x _ ih

theorem sortStrings_nodup (l : List String) (h : l.Nodup) :
    (sortStrings l).Nodup :=
  (sortStrings_perm l).nodup_iff.mpr h

theorem sortStrings_mem (l : List String) (x : String) :
    x ∈ sortStrings l ↔ x ∈ l :=
  (sortStrings_perm l).mem_iff

theorem string_mk_eq_empty_iff (l : List Char) : String.mk l = "" ↔ l = [] := by
  constructor
  · intro h
    have := congrArg String.data h
    simpa using this
  · intro h; subst h; rfl

theorem trimSpaceList_eq_nil_iff (l : List Char) :
    trimSpaceList l = [] ↔ ∀ c ∈ l, goIsSpace c = true := by
  unfold trimSpaceList
  rw [List.reverse_eq_nil_iff, List.dropWhile_eq_nil_iff]
  constructor
  · intro h c hc
    by_cases hsp : goIsSpace c = true
    · exact hsp
    · have hc2 : c ∈ l.dropWhile goIsSpace := by
        have hsplit := List.takeWhile_append_dropWhile (p := goIsSpace) (l := l)
        rw [← hsplit] at hc
        rcases List.mem_append.mp hc with h1 | h1
        · exact absurd (List.mem_takeWhile_imp h1) (by simpa using hsp)
        · exact h1
      have := h c (List.mem_reverse.mpr hc2)
      exact absurd this (by simpa using hsp)
  · intro h c hc
    have hc2 : c ∈ l.dropWhile goIsSpace := List.mem_reverse.mp hc
    have : c ∈ l := List.dropWhile_subset _ hc2
    exact h c this

theorem trimSpace_eq_empty_iff (s : String) :
    trimSpace s = "" ↔ ∀ c ∈ s.data, goIsSpace c = true := by
  unfold trimSpace
  rw [string_mk_eq_empty_iff]
  exact trimSpaceList_eq_nil_iff s.data

theorem trimSpace_ne_empty (s : String) (c : Char) (hc : c ∈ s.data)
    (hns : goIsSpace c = false) : trimSpace s ≠ "" := by
  intro h
  have := (trimSpace_eq_empty_iff s).mp h c hc
  simp [this] at hns


theorem takeWhile_append_allneg (q : Char → Bool) (xs t : List Char)
    (ht : ∀ c ∈ t, q c = false) :
    (xs ++ t).takeWhile q = xs.takeWhile q := by
  induction xs with
  | nil =>
    simp only [List.nil_append, List.takeWhile_nil]
    cases t with
    | nil => rfl
    | cons c cs =>
      simp [List.takeWhile_cons, ht c (by simp)]
  | cons x xs ih =>
    by_cases hx : q x
    · simp [List.takeWhile_cons, hx, ih]
    · simp [List.takeWhile_cons, hx]

theorem dropWhile_append_allneg (q : Char → Bool) (xs t : List Char)
    (ht : ∀ c ∈ t, q c = false) :
    (xs ++ t).dropWhile q = xs.dropWhile q ++ t := by
  induction xs with
  | nil =>
    simp only [List.nil_append, List.dropWhile_nil]
    cases t with
    | nil => rfl
    | cons c cs =>
      simp [List.dropWhile_cons, ht c (by simp)]
  | cons x xs ih =>
    by_cases hx : q x
    · simp [List.dropWhile_cons, hx, ih]
    · simp [List.dropWhile_cons, hx]

theorem fieldsList_all_spaces : ∀ t : List Char,
    (∀ c ∈ t, goIsSpace c = true) → fieldsList t = [] := by
  intro t
  induction t with
  | nil => intro _; rw [fieldsList]
  | cons c cs ih =>
    intro ht
    rw [fieldsList]
    simp only [ht c (by simp), if_true]
    exact ih (fun d hd => ht d (by simp [hd]))

theorem fieldsList_append_spaces (t : List Char)
    (ht : ∀ c ∈ t, goIsSpace c = true) :
    ∀ n x, x.length ≤ n → fieldsList (x ++ t) = fieldsList x := by
  intro n
  induction n with
  | zero =>
    intro x hx
    have hxe : x = [] := List.length_eq_zero.mp (Nat.le_zero.mp hx)
    subst hxe
    simp only [List.nil_append]
    rw [fieldsList_all_spaces t ht]
    rw [fieldsList]
  | succ n ih =>
    intro x hx
    cases x with
    | nil => exact ih [] (by simp)
    | cons c cs =>
      rw [List.cons_append]
      rw [fieldsList]
      conv_rhs => rw [fieldsList]
      by_cases hc : goIsSpace c
      · simp only [hc, if_true]
        exact ih cs (by simpa using Nat.le_of_succ_le_succ hx)
      · simp only [hc, Bool.false_eq_true, if_false]
        have hneg : ∀ d ∈ t, (!goIsSpace d) = false := by
          intro d hd
          simp [ht d hd]
        rw [takeWhile_append_allneg _ cs t hneg,
          dropWhile_append_allneg _ cs t hneg]
        congr 1
        have hlen : (cs.dropWhile (fun d => !goIsSpace d)).length ≤ n := by
          have h1 := (List.dropWhile_sublist
            (l := cs) (fun d => !goIsSpace d)).length_le
          have h2 : cs.length ≤ n := by simpa using Nat.le_of_succ_le_succ hx
          omega
        exact ih _ hlen

theorem fieldsList_dropWhile_leading (l : List Char) :
    fieldsList (l.dropWhile goIsSpace) = fieldsList l := by
  induction l with
  | nil => rfl
  | cons c cs ih =>
    by_cases hc : goIsSpace c
    · have h1 : (c :: cs).dropWhile goIsSpace = cs.dropWhile goIsSpace := by
        simp [List.dropWhile_cons, hc]
      have h2 : fieldsList (c :: cs) = fieldsList cs := by
        rw [fieldsList]
        simp [hc]
      rw [h1, ih, h2]
    · have h1 : (c :: cs).dropWhile goIsSpace = c :: cs := by
        simp [List.dropWhile_cons, hc]
      rw [h1]

theorem fieldsList_trimSpaceList (l : List Char) :
    fieldsList (trimSpaceList l) = fieldsList l := by
  unfold trimSpaceList
  set m := l.dropWhile goIsSpace with hm
  have hrepr : m = (m.reverse.dropWhile goIsSpace).reverse ++
      (m.reverse.takeWhile goIsSpace).reverse := by
    conv_lhs => rw [← List.reverse_reverse m,
      ← List.takeWhile_append_dropWhile (p := goIsSpace) (l := m.reverse)]
    rw [List.reverse_append]
  have ht : ∀ c ∈ (m.reverse.takeWhile goIsSpace).reverse,
      goIsSpace c = true := by
    intro c hc
    exact List.mem_takeWhile_imp (List.mem_reverse.mp hc)
  calc fieldsList (m.reverse.dropWhile goIsSpace).reverse
      = fieldsList ((m.reverse.dropWhile goIsSpace).reverse ++
          (m.reverse.takeWhile goIsSpace).reverse) :=
        (fieldsList_append_spaces _ ht _ _ (le_refl _)).symm
    _ = fieldsList m := by rw [← hrepr]
    _ = fieldsList l := fieldsList_dropWhile_leading l

theorem fields_trimSpace (s : String) : fields (trimSpace s) = fields s := by
  unfold fields trimSpace
  rw [show (String.mk (trimSpaceList s.data)).data = trimSpaceList s.data
    from rfl]
  rw [fieldsList_trimSpaceList]


theorem fieldsList_of_mem_nonspace : ∀ (l : List Char) (c : Char),
    c ∈ l → goIsSpace c = false →
    ∃ w ws, fieldsList l = w :: ws ∧ w ≠ [] := by
  intro l
  induction l with
  | nil => intro c hc; exact absurd hc (List.not_mem_nil c)
  | cons d ds ih =>
    intro c hc hns
    by_cases hd : goIsSpace d
    · have hcd : c ≠ d := by
        intro h
        subst h
        simp [hd] at hns
      have hc2 : c ∈ ds := by
        rcases List.mem_cons.mp hc with h | h
        · exact absurd h hcd
        · exact h
      obtain ⟨w, ws, hw, hwne⟩ := ih c hc2 hns
      refine ⟨w, ws, ?_, hwne⟩
      rw [fieldsList]
      simp [hd, hw]
    · refine ⟨d :: ds.takeWhile (fun e => !goIsSpace e),
        fieldsList (ds.dropWhile (fun e => !goIsSpace e)), ?_, by simp⟩
      rw [fieldsList]
      simp [hd]

theorem parsePID_eq_headD (s : String) :
    parsePID s = (fields s).headD "" := by
  unfold parsePID
  by_cases h : trimSpace s = ""
  · rw [if_pos h, ← fields_trimSpace s, h]
    show "" = (List.map String.mk (fieldsList [])).headD ""
    rw [fieldsList]
    rfl
  · rw [if_neg h, ← fields_trimSpace s]
    cases hf : fields (trimSpace s) with
    | nil => rfl
    | cons f fs => rfl

theorem parsePID_ne_empty (s : String) (c : Char) (hc : c ∈ s.data)
    (hns : goIsSpace c = false) : parsePID s ≠ "" := by
  rw [parsePID_eq_headD]
  obtain ⟨w, ws, hw, hwne⟩ := fieldsList_of_mem_nonspace s.data c hc hns
  unfold fields
  rw [hw]
  simp only [List.map_cons, List.headD_cons]
  intro hcontra
  exact hwne ((string_mk_eq_empty_iff w).mp hcontra)

theorem parsePID_whitespace (s : String)
    (h : ∀ c ∈ s.data, goIsSpace c = true) : parsePID s = "" := by
  unfold parsePID
  rw [if_pos ((trimSpace_eq_empty_iff s).mpr h)]


theorem lookup_cons {A : Type} (k : String) (kv : String × A)
    (rest : List (String × A)) :
    List.lookup k (kv :: rest) =
      if k = kv.1 then some kv.2 else List.lookup k rest := by
  simp only [List.lookup]
  by_cases h : k = kv.1
  · rw [if_pos h]
    have hb : (k == kv.1) = true := beq_iff_eq.mpr h
    rw [hb]
  · rw [if_neg h]
    have hb : (k == kv.1) = false := beq_eq_false_iff_ne.mpr h
    rw [hb]

theorem lookup_eq_none_of_not_mem_keys {A : Type} (m : List (String × A))
    (k : String) (h : k ∉ m.map Prod.fst) : m.lookup k = none := by
  induction m with
  | nil => rfl
  | cons kv rest ih =>
    simp only [List.map_cons, List.mem_cons] at h
    push_neg at h
    rw [lookup_cons, if_neg h.1]
    exact ih h.2

theorem lookup_setKey (m : List (String × String)) (k v k' : String) :
    (setKey m k v).lookup k' = if k' = k then some v else m.lookup k' := by
  induction m with
  | nil =>
    show List.lookup k' [(k, v)] = _
    rw [lookup_cons]
  | cons kv rest ih =>
    by_cases h : kv.1 = k
    · rw [setKey, if_pos h, lookup_cons, lookup_cons]
      by_cases h2 : k' = k
      · rw [if_pos (show k' = (k, v).1 from h2), if_pos h2]
      · rw [if_neg (show ¬k' = (k, v).1 from h2), if_neg h2,
          if_neg (show ¬k' = kv.1 by rw [h]; exact h2)]
    · rw [setKey, if_neg h, lookup_cons, lookup_cons, ih]
      by_cases h2 : k' = kv.1
      · rw [if_pos h2, if_neg (show ¬k' = k by rw [h2]; exact h),
          if_pos h2]
      · rw [if_neg h2]
        by_cases h3 : k' = k
        · rw [if_pos h3, if_pos h3]
        · rw [if_neg h3, if_neg h3, if_neg h2]

theorem foldl_setKey_lookup (f : JVal → String) :
    ∀ (obj : List (String × JVal)) (custom : List (String × String))
      (k : String), (obj.map Prod.fst).Nodup →
    ((obj.foldl (fun m kv => setKey m kv.1 (f kv.2)) custom).lookup k) =
      (match obj.lookup k with
       | some v => some (f v)
       | none => custom.lookup k) := by
  intro obj
  induction obj with
  | nil => intro custom k _; rfl
  | cons kv rest ih =>
    intro custom k hnodup
    simp only [List.map_cons, List.nodup_cons] at hnodup
    simp only [List.foldl_cons]
    rw [ih _ k hnodup.2, lookup_cons]
    by_cases h : k = kv.1
    · have hnone : rest.lookup k = none := by
        apply lookup_eq_none_of_not_mem_keys
        rw [h]
        exact hnodup.1
      rw [hnone, if_pos h, lookup_setKey, if_pos h]
    · rw [if_neg h]
      cases hr : rest.lookup k with
      | some v => rfl
      | none =>
        rw [lookup_setKey, if_neg h]



theorem shEval_plain_cons (c : Char) (rest : List Char) :
    shEval .plain (c :: rest) =
      if c = '\'' then shEval .single rest
      else if c = '"' then shEval .double rest
      else (shEval .plain rest).map (fun l => c :: l) := rfl

theorem shEval_single_cons (c : Char) (rest : List Char) :
    shEval .single (c :: rest) =
      if c = '\'' then shEval .plain rest
      else (shEval .single rest).map (fun l => c :: l) := rfl

theorem shEval_double_cons (c : Char) (rest : List Char) :
    shEval .double (c :: rest) =
      if c = '"' then shEval .plain rest
      else (shEval .double rest).map (fun l => c :: l) := rfl

theorem shEval_single_escQuotes (l rest : List Char) :
    shEval .single (escQuotes l ++ rest) =
      (shEval .single rest).map (fun t => l ++ t) := by
  induction l with
  | nil =>
    simp only [escQuotes, List.nil_append]
    cases shEval .single rest <;> simp
  | cons c cs ih =>
    by_cases hc : c = '\''
    · subst hc
      have hesc : escQuotes ('\'' :: cs) =
          '\'' :: '"' :: '\'' :: '"' :: '\'' :: escQuotes cs := by
        simp [escQuotes, escQuoteChar]
      rw [hesc]
      simp only [List.cons_append]
      rw [shEval_single_cons, if_pos rfl, shEval_plain_cons,
        if_neg (by decide), if_pos rfl, shEval_double_cons,
        if_neg (by decide), shEval_double_cons, if_pos rfl,
        shEval_plain_cons, if_pos rfl, ih]
      cases shEval .single rest <;> simp
    · have hesc : escQuotes (c :: cs) = c :: escQuotes cs := by
        simp [escQuotes, escQuoteChar, hc]
      rw [hesc]
      simp only [List.cons_append]
      rw [shEval_single_cons, if_neg hc, ih]
      cases shEval .single rest <;> simp

theorem shellQuote_roundTrip (v : String) :
    shellUnquote (shellQuote v) = some v := by
  by_cases hv : v = ""
  · subst hv
    rfl
  · unfold shellQuote shellUnquote
    rw [if_neg hv]
    have hdata : ("'" ++ String.mk (escQuotes v.data) ++ "'").data =
        '\'' :: (escQuotes v.data ++ ['\'']) := by
      rw [String.data_append, String.data_append]
      rfl
    rw [hdata, shEval_plain_cons, if_pos rfl, shEval_single_escQuotes,
      shEval_single_cons, if_pos rfl]
    simp [shEval]

/-! ## Claim theorems -/

theorem generateRunIDAux_spec (p : String → Bool) (dir : String) :
    ∀ (fuel start k : Nat), start ≤ k → k < start + fuel →
    p (goJoin dir (Nat.repr k)) = false →
    (∀ j, start ≤ j → j < k → p (goJoin dir (Nat.repr j)) = true) →
    generateRunIDAux p dir fuel start = some (Nat.repr k) := by
  intro fuel
  induction fuel with
  | zero => intro start k h1 h2 _ _; omega
  | succ n ih =>
    intro start k h1 h2 hfree htaken
    rw [generateRunIDAux]
    by_cases hs : start = k
    · subst hs
      simp [hfree]
    · have hlt : start < k := lt_of_le_of_ne h1 hs
      have hstart : p (goJoin dir (Nat.repr start)) = true :=
        htaken start (le_refl start) hlt
      simp only [hstart, if_true]
      exact ih (start + 1) k hlt (by omega) hfree
        (fun j hj1 hj2 => htaken j (by omega) hj2)

/-- C1: the run id allocated at workflow start is the decimal string of the
smallest positive integer whose directory does not yet exist under the
output root: whenever `k` is least with `<outputDir>/<k>` absent (every
smaller positive numeral present) and the loop is given at least `k`
iterations of fuel, `generateRunID` returns exactly `Nat.repr k`, for every
directory layout `p`. -/
theorem c1_generateRunID_least (p : String → Bool) (outputDir : String)
    (k fuel : Nat) (hk : 1 ≤ k)
    (hfree : p (goJoin outputDir (Nat.repr k)) = false)
    (htaken : ∀ j, 1 ≤ j → j < k → p (goJoin outputDir (Nat.repr j)) = true)
    (hfuel : k ≤ fuel) :
    generateRunID p outputDir fuel = some (Nat.repr k) :=
  generateRunIDAux_spec p outputDir fuel 1 k hk (by omega) hfree htaken

theorem c1_generateRunID_least_witness :
    generateRunID (fun s => s = "out/1" || s = "out/2") "out" 3 =
      some "3" :=
  c1_generateRunID_least (fun s => s = "out/1" || s = "out/2") "out" 3 3
    (by decide) (by decide) (by decide) (by decide)

/-- C2 counterexample: a stage whose `hosts` list field holds exactly one
alias resolves to a single host, yet its collected file name carries the
`__<host>` suffix, contradicting the claim's |S.hosts| = 1 case. -/
theorem c2_counterexample :
    (resolveStageHosts stageHostsOne).length = 1 ∧
    outputFilename outC2 stageHostsOne "A" ≠
      outC2.name ++ fileExt outC2.remotePath ∧
    outputFilename outC2 stageHostsOne "A" = "o__A.csv" := by
  decide

/-- C2 amended: the `__<host alias>` suffix is applied exactly when the
stage's `hosts` list field is non-empty (even with a single element); a
stage addressed through the singular `host` field or the local default
(empty `hosts`) collects under the plain `<name><ext>` name. In particular
every stage that fans out over more than one resolved host gets the
suffixed name. -/
theorem c2_outputFilename_by_hosts_field (stage : Stage) (output : Output)
    (h : String) :
    (stage.hosts ≠ [] →
      outputFilename output stage h =
        output.name ++ "__" ++ h ++ fileExt output.remotePath) ∧
    (stage.hosts = [] →
      outputFilename output stage h =
        output.name ++ fileExt output.remotePath) ∧
    ((resolveStageHosts stage).length > 1 →
      outputFilename output stage h =
        output.name ++ "__" ++ h ++ fileExt output.remotePath) := by
  refine ⟨?_, ?_, ?_⟩
  · intro hne
    unfold outputFilename
    rw [if_pos (List.length_pos.mpr hne)]
  · intro he
    unfold outputFilename
    rw [he]
    simp
  · intro hlen
    unfold outputFilename
    unfold resolveStageHosts at hlen
    by_cases hne : stage.hosts.length > 0
    · rw [if_pos hne]
    · rw [if_neg hne] at hlen
      by_cases hh : trimSpace stage.host ≠ ""
      · rw [if_pos hh] at hlen
        simp at hlen
      · rw [if_neg hh] at hlen
        simp at hlen

/-- C10: an empty or whitespace-only command is rejected by both execution
clients with exit code -1 and the error "empty command", before any
process is started or session opened (the event trace stays empty). -/
theorem c10_empty_command_rejected (env : CmdEnv) (req : CommandRequest)
    (h : ∀ c ∈ req.command.data, goIsSpace c = true) :
    localRunCommand env req =
      { result := { output := "", exitCode := -1 },
        error := some "empty command", events := [] } ∧
    sshRunCommand env req =
      { result := { output := "", exitCode := -1 },
        error := some "empty command", events := [] } := by
  have ht : trimSpace req.command = "" :=
    (trimSpace_eq_empty_iff req.command).mpr h
  constructor
  · unfold localRunCommand
    rw [if_pos ht]
  · unfold sshRunCommand
    rw [if_pos ht]

theorem c10_empty_command_rejected_witness :
    localRunCommand { runs := fun _ => ({ output := "x", exitCode := 0 },
        none) } { command := " \t " } =
      { result := { output := "", exitCode := -1 },
        error := some "empty command", events := [] } ∧
    sshRunCommand { runs := fun _ => ({ output := "x", exitCode := 0 },
        none) } { command := " \t " } =
      { result := { output := "", exitCode := -1 },
        error := some "empty command", events := [] } :=
  c10_empty_command_rejected _ _ (by decide)

/-- C6 counterexample: two distinct writer objects that share the same OS
file descriptor are both kept by `multiWriterFiltered` — the filter
compares reflect pointers, not descriptors — so each byte of the combined
PTY stream is written twice to that descriptor (the capture buffer still
receives it once), contradicting the claim's "same underlying OS file
descriptor" de-duplication. -/
theorem c6_counterexample :
    (Writer.mk 1 (some 5)).fd = (Writer.mk 2 (some 5)).fd ∧
    writesToFd (ptyCombinedDest (some (Writer.mk 1 (some 5)))
      (some (Writer.mk 2 (some 5))) (some (Writer.mk 3 none))) 5 = 2 ∧
    writesToPtr (ptyCombinedDest (some (Writer.mk 1 (some 5)))
      (some (Writer.mk 2 (some 5))) (some (Writer.mk 3 none))) 3 = 1 := by
  decide

/-- C6 amended: the de-duplication is by writer identity (reflect
pointer), which is what the stage executor relies on — it passes the very
same console writer object as both the stdout and stderr sink. With the
two sinks the same writer and the capture buffer a distinct in-memory one,
the PTY-combined destination keeps exactly one copy of the sink and the
capture, so each output byte reaches the console descriptor exactly once
and the capture buffer exactly once; the piped (non-PTY) destinations do
the same per stream. -/
theorem c6_dedup_by_pointer (stdout stderr capture : Writer) (d : Nat)
    (hsame : stdout.ptr = stderr.ptr)
    (hcap : capture.ptr ≠ stdout.ptr)
    (hcapfd : capture.fd ≠ some d)
    (hfd : stdout.fd = some d) :
    ptyCombinedDest (some stdout) (some stderr) (some capture) =
      [stdout, capture] ∧
    writesToFd (ptyCombinedDest (some stdout) (some stderr) (some capture))
      d = 1 ∧
    writesToPtr (ptyCombinedDest (some stdout) (some stderr) (some capture))
      capture.ptr = 1 ∧
    writesToPtr (pipedStdoutDest (some stdout) (some capture))
      capture.ptr = 1 ∧
    writesToFd (pipedStdoutDest (some stdout) (some capture)) d = 1 := by
  have hdest : ptyCombinedDest (some stdout) (some stderr) (some capture) =
      [stdout, capture] := by
    unfold ptyCombinedDest multiWriterFiltered
    rw [filterDedup, if_neg (by simp)]
    rw [filterDedup, if_pos (by simp [hsame])]
    rw [filterDedup, if_neg (by simp [hcap])]
    rw [filterDedup]
  have hpiped : pipedStdoutDest (some stdout) (some capture) =
      [stdout, capture] := by
    unfold pipedStdoutDest multiWriterFiltered
    rw [filterDedup, if_neg (by simp)]
    rw [filterDedup, if_neg (by simp [hcap])]
    rw [filterDedup]
  refine ⟨hdest, ?_, ?_, ?_, ?_⟩
  · rw [hdest]
    unfold writesToFd
    rw [List.filter_cons, List.filter_cons]
    simp [hfd, hcapfd]
  · rw [hdest]
    unfold writesToPtr
    rw [List.filter_cons, List.filter_cons]
    simp [Ne.symm hcap]
  · rw [hpiped]
    unfold writesToPtr
    rw [List.filter_cons, List.filter_cons]
    simp [Ne.symm hcap]
  · rw [hpiped]
    unfold writesToFd
    rw [List.filter_cons, List.filter_cons]
    simp [hfd, hcapfd]

theorem c6_dedup_by_pointer_witness :
    ptyCombinedDest (some (Writer.mk 1 (some 5))) (some (Writer.mk 1
      (some 5))) (some (Writer.mk 3 none)) =
      [Writer.mk 1 (some 5), Writer.mk 3 none] ∧
    writesToFd (ptyCombinedDest (some (Writer.mk 1 (some 5)))
      (some (Writer.mk 1 (some 5))) (some (Writer.mk 3 none))) 5 = 1 ∧
    writesToPtr (ptyCombinedDest (some (Writer.mk 1 (some 5)))
      (some (Writer.mk 1 (some 5))) (some (Writer.mk 3 none)))
      (Writer.mk 3 none).ptr = 1 ∧
    writesToPtr (pipedStdoutDest (some (Writer.mk 1 (some 5)))
      (some (Writer.mk 3 none))) (Writer.mk 3 none).ptr = 1 ∧
    writesToFd (pipedStdoutDest (some (Writer.mk 1 (some 5)))
      (some (Writer.mk 3 none))) 5 = 1 :=
  c6_dedup_by_pointer (Writer.mk 1 (some 5)) (Writer.mk 1 (some 5))
    (Writer.mk 3 none) 5 (by decide) (by decide) (by decide) (by decide)


/-- C7 counterexample: copying to a destination whose parent directory
does not exist succeeds for the local client (it runs `MkdirAll` first)
but fails for the ssh client, whose `os.Create` needs the parent to exist
— so the claim's "parent directories are created as needed" is false for
the remote variant. -/
theorem c7_counterexample :
    (sshScp hostFilesC7 fsC7 "/r.csv" "/run/sub/out.csv").2 =
      some "error creating local file: no such file or directory" ∧
    (sshScp hostFilesC7 fsC7 "/r.csv" "/run/sub/out.csv").1 = fsC7 ∧
    (localScp hostFilesC7 fsC7 "/r.csv" "/run/sub/out.csv").2 = none ∧
    (localScp hostFilesC7 fsC7 "/r.csv"
      "/run/sub/out.csv").1.files.lookup "/run/sub/out.csv" =
      some "data" := by
  decide

/-- C7 amended: both client variants overwrite an existing destination
file with the host file's content, and the local variant creates every
parent directory of the destination; the ssh variant instead requires the
destination's directory to already exist, succeeding (and overwriting)
when it does and erring without touching the file system when it does
not. -/
theorem c7_scp_overwrite_semantics (hostFiles : List (String × String))
    (fs : FileSys) (remotePath localPath content : String)
    (hremote : hostFiles.lookup remotePath = some content) :
    ((localScp hostFiles fs remotePath localPath).2 = none ∧
      (localScp hostFiles fs remotePath localPath).1.files.lookup
        localPath = some content ∧
      ∀ q ∈ pathPrefixes (dirName localPath),
        q ∈ (localScp hostFiles fs remotePath localPath).1.dirs) ∧
    (dirName localPath ∈ fs.dirs →
      (sshScp hostFiles fs remotePath localPath).2 = none ∧
      (sshScp hostFiles fs remotePath localPath).1.files.lookup
        localPath = some content) ∧
    (dirName localPath ∉ fs.dirs →
      (sshScp hostFiles fs remotePath localPath).2 =
        some "error creating local file: no such file or directory" ∧
      (sshScp hostFiles fs remotePath localPath).1 = fs) := by
  refine ⟨?_, ?_, ?_⟩
  · unfold localScp
    rw [hremote]
    refine ⟨rfl, ?_, ?_⟩
    · show (setKey fs.files localPath content).lookup localPath = _
      rw [lookup_setKey, if_pos rfl]
    · intro q hq
      show q ∈ fs.dirs ++ pathPrefixes (dirName localPath)
      exact List.mem_append.mpr (Or.inr hq)
  · intro hdir
    unfold sshScp
    rw [if_pos hdir, hremote]
    refine ⟨rfl, ?_⟩
    show (setKey (setKey fs.files localPath "") localPath content).lookup
      localPath = _
    rw [lookup_setKey, if_pos rfl]
  · intro hdir
    unfold sshScp
    rw [if_neg hdir]
    exact ⟨rfl, rfl⟩

theorem c7_scp_overwrite_semantics_witness :
    ((localScp hostFilesC7 fsC7 "/r.csv" "/run/out.csv").2 = none ∧
      (localScp hostFilesC7 fsC7 "/r.csv"
        "/run/out.csv").1.files.lookup "/run/out.csv" = some "data" ∧
      ∀ q ∈ pathPrefixes (dirName "/run/out.csv"),
        q ∈ (localScp hostFilesC7 fsC7 "/r.csv" "/run/out.csv").1.dirs) ∧
    (dirName "/run/out.csv" ∈ fsC7.dirs →
      (sshScp hostFilesC7 fsC7 "/r.csv" "/run/out.csv").2 = none ∧
      (sshScp hostFilesC7 fsC7 "/r.csv"
        "/run/out.csv").1.files.lookup "/run/out.csv" = some "data") ∧
    (dirName "/run/out.csv" ∉ fsC7.dirs →
      (sshScp hostFilesC7 fsC7 "/r.csv" "/run/out.csv").2 =
        some "error creating local file: no such file or directory" ∧
      (sshScp hostFilesC7 fsC7 "/r.csv" "/run/out.csv").1 = fsC7) :=
  c7_scp_overwrite_semantics hostFilesC7 fsC7 "/r.csv" "/run/out.csv"
    "data" (by decide)


theorem stopStage_ev_mem (env : WfEnv) (r : BgRec) :
    Ev.stopRecord r.stage.name r.pid ∈ (stopStage env r).1 := by
  unfold stopStage
  cases openClientErr env r.hostAlias r.host <;>
    cases terminatePIDErr env r.stage.name r.pid <;>
      by_cases h : r.stage.outputs.length > 0 <;>
        simp [h]

theorem stopStage_collect_mem (env : WfEnv) (r : BgRec) (o : Output)
    (hok : (stopStage env r).2 = none)
    (ho : r.stage.outputs.head? = some o) :
    Ev.collect r.stage.name r.hostAlias o.name ∈ (stopStage env r).1 := by
  unfold stopStage at hok ⊢
  cases hopen : openClientErr env r.hostAlias r.host with
  | some e => simp [hopen] at hok
  | none =>
    cases hterm : terminatePIDErr env r.stage.name r.pid with
    | some e => simp [hopen, hterm] at hok
    | none =>
      simp only [hopen, hterm]
      cases houts : r.stage.outputs with
      | nil => rw [houts] at ho; simp at ho
      | cons o1 rest =>
        rw [houts] at ho
        simp only [List.head?_cons, Option.some_inj] at ho
        subst ho
        simp only [List.length_cons, gt_iff_lt, Nat.zero_lt_succ, if_true]
        rw [collectOutputsLoop]
        rcases henv : env.scpErr r.hostAlias o1.remotePath with _ | e <;>
          simp [henv]

/-- C8: `StopAll` attempts to stop every registered background record even
when an earlier record fails — the stop event of every record appears in
the trace, and the collection of a record's declared outputs is attempted
once its process is stopped — and the errors it returns are exactly the
accumulated per-record errors, not just the first. -/
theorem c8_stopAll_accumulates (env : WfEnv) (records : List BgRec) :
    (stopAllModel env records).2 =
      records.filterMap (fun r => (stopStage env r).2) ∧
    (∀ r ∈ records,
      Ev.stopRecord r.stage.name r.pid ∈ (stopAllModel env records).1) ∧
    (∀ r ∈ records, ∀ o, (stopStage env r).2 = none →
      r.stage.outputs.head? = some o →
      Ev.collect r.stage.name r.hostAlias o.name ∈
        (stopAllModel env records).1) := by
  induction records with
  | nil => exact ⟨rfl, by simp, by simp⟩
  | cons r rs ih =>
    refine ⟨?_, ?_, ?_⟩
    · show (match (stopStage env r).2 with
        | some e => [e]
        | none => []) ++ (stopAllModel env rs).2 = _
      rw [List.filterMap_cons, ih.1]
      cases (stopStage env r).2 <;> rfl
    · intro x hx
      rcases List.mem_cons.mp hx with rfl | hx2
      · exact List.mem_append.mpr (Or.inl (stopStage_ev_mem env x))
      · exact List.mem_append.mpr (Or.inr (ih.2.1 x hx2))
    · intro x hx o hok ho
      rcases List.mem_cons.mp hx with rfl | hx2
      · exact List.mem_append.mpr
          (Or.inl (stopStage_collect_mem env x o hok ho))
      · exact List.mem_append.mpr (Or.inr (ih.2.2 x hx2 o hok ho))


/-- C4: appendStageMetadata. On a decode failure it returns an error (the
custom map the caller keeps is untouched); on success each decoded JSON
number is stored as its source text, each string as-is, anything else as
its re-marshalled JSON, and a key already present is overwritten — the
resulting map answers every lookup with the decoded object's value when the
key was in the object and with the old value otherwise. -/
theorem c4_appendStageMetadata
    (dec : String → Except String (List (String × JVal))) (stage : Stage)
    (custom : List (String × String)) (output : String) :
    (∀ e, dec output = .error e →
      appendStageMetadata dec stage custom output =
        .error ("stage " ++ stage.name ++
          " append_metadata enabled but output is not valid JSON: " ++ e) ∧
      appendStageMetadataEffect dec stage custom output = custom) ∧
    (∀ obj m, dec output = .ok obj →
      appendStageMetadata dec stage custom output = .ok m →
      (obj.map Prod.fst).Nodup →
      ∀ k, m.lookup k =
        (match obj.lookup k with
         | some v => some (stringifyJVal v)
         | none => custom.lookup k)) ∧
    (∀ t, stringifyJVal (JVal.num t) = t) ∧
    (∀ s, stringifyJVal (JVal.str s) = s) ∧
    (∀ v, (∀ t, v ≠ JVal.num t) → (∀ s, v ≠ JVal.str s) →
      stringifyJVal v = jsonSerialize v) := by
  refine ⟨?_, ?_, fun t => rfl, fun s => rfl, ?_⟩
  · intro e he
    unfold appendStageMetadata appendStageMetadataEffect
    rw [he]
    exact ⟨rfl, by unfold appendStageMetadata; rw [he]⟩
  · intro obj m hdec hm hnodup k
    unfold appendStageMetadata at hm
    rw [hdec] at hm
    simp only [Except.ok.injEq] at hm
    subst hm
    exact foldl_setKey_lookup stringifyJVal obj custom k hnodup
  · intro v hnum hstr
    cases v with
    | num t => exact absurd rfl (hnum t)
    | str s => exact absurd rfl (hstr s)
    | jbool b => rfl
    | jnull => rfl
    | arr es => rfl
    | obj fs => rfl


/-- C5 counterexample: a user environment key that matches
`[A-Za-z_][A-Za-z0-9_]*` may equal a built-in key, which is then exported
twice; and even with no user keys the emitted key sequence is not in sorted
order (the three unconditional built-ins are emitted as RUN_ID, OUTPUT_DIR,
RUN_DIR). -/
theorem c5_counterexample :
    envKeyValid "BENCHCTL_RUN_ID" = true ∧
    ((buildEnvPairs "1" "out/1" cfgC5 [("BENCHCTL_RUN_ID", "x")] ""
      "").map Prod.fst).count "BENCHCTL_RUN_ID" = 2 ∧
    ¬ ((buildEnvPairs "1" "out/1" cfgC5 [] "" "").map
      Prod.fst).Pairwise (fun a b => strLeB a b = true) := by
  decide

theorem base_env_keys_nodup (configPath exePath : String) :
    (([envRunID, envOutputDir, envRunDir] ++
      (if trimSpace configPath ≠ "" then [envConfigPath] else []) ++
      (if trimSpace exePath ≠ "" then [envBenchctl] else []))).Nodup := by
  by_cases h1 : trimSpace configPath ≠ ""
  · by_cases h2 : trimSpace exePath ≠ ""
    · rw [if_pos h1, if_pos h2]; decide
    · rw [if_pos h1, if_neg h2]; decide
  · by_cases h2 : trimSpace exePath ≠ ""
    · rw [if_neg h1, if_pos h2]; decide
    · rw [if_neg h1, if_neg h2]; decide

/-- C5 amended: provided the user keys are distinct and none collides with
a built-in key, every key is exported exactly once (the key list has no
duplicates); the key order is deterministic — the built-ins in their fixed
order (RUN_ID, OUTPUT_DIR, RUN_DIR, then CONFIG_PATH and BIN when known)
followed by the user keys in sorted order (only the user segment is
sorted); every exported value is single-quote shell-quoted so that a POSIX
shell reading it recovers the value exactly; and the prefix is the
space-separated `export k='v' …; ` serialization of those pairs. -/
theorem c5_env_exports (runID runDir : String) (cfg : Config)
    (envVars : List (String × String)) (configPath exePath : String)
    (hnodup : (envVars.map Prod.fst).Nodup)
    (hdisj : ∀ k ∈ envVars.map Prod.fst,
      k ≠ envRunID ∧ k ≠ envOutputDir ∧ k ≠ envRunDir ∧
      k ≠ envConfigPath ∧ k ≠ envBenchctl) :
    ((buildEnvPairs runID runDir cfg envVars configPath exePath).map
      Prod.fst).Nodup ∧
    (buildEnvPairs runID runDir cfg envVars configPath exePath).map
      Prod.fst =
      ([envRunID, envOutputDir, envRunDir] ++
        (if trimSpace configPath ≠ "" then [envConfigPath] else []) ++
        (if trimSpace exePath ≠ "" then [envBenchctl] else [])) ++
      sortStrings (envVars.map Prod.fst) ∧
    (sortStrings (envVars.map Prod.fst)).Pairwise
      (fun a b => strLeB a b = true) ∧
    (∀ kv ∈ buildEnvPairs runID runDir cfg envVars configPath exePath,
      shellUnquote (shellQuote kv.2) = some kv.2) ∧
    buildEnvPfx runID runDir cfg envVars configPath exePath =
      "export " ++ joinWith " "
        ((buildEnvPairs runID runDir cfg envVars configPath exePath).map
          (fun kv => kv.1 ++ "=" ++ shellQuote kv.2)) ++ "; " := by
  have hkeys : (buildEnvPairs runID runDir cfg envVars configPath
      exePath).map Prod.fst =
      ([envRunID, envOutputDir, envRunDir] ++
        (if trimSpace configPath ≠ "" then [envConfigPath] else []) ++
        (if trimSpace exePath ≠ "" then [envBenchctl] else [])) ++
      sortStrings (envVars.map Prod.fst) := by
    unfold buildEnvPairs
    rw [List.map_append, List.map_map]
    congr 1
    · by_cases h1 : trimSpace configPath ≠ "" <;>
        by_cases h2 : trimSpace exePath ≠ "" <;>
          simp [h1, h2]
    · rw [show (Prod.fst ∘ fun k =>
        (k, (envVars.lookup k).getD "")) = id from rfl]
      exact List.map_id _
  refine ⟨?_, hkeys, sortStrings_pairwise _, ?_, rfl⟩
  · rw [hkeys]
    apply List.Nodup.append
    · exact base_env_keys_nodup configPath exePath
    · exact sortStrings_nodup _ hnodup
    · intro k hk1 hk2
      have hk3 : k ∈ envVars.map Prod.fst :=
        (sortStrings_mem _ k).mp hk2
      obtain ⟨d1, d2, d3, d4, d5⟩ := hdisj k hk3
      rcases List.mem_append.mp hk1 with hk4 | hk4
      · rcases List.mem_append.mp hk4 with hk5 | hk5
        · simp only [List.mem_cons, List.mem_singleton] at hk5
          rcases hk5 with rfl | rfl | hk6
          · exact d1 rfl
          · exact d2 rfl
          · simp only [List.mem_cons, List.not_mem_nil] at hk6
            rcases hk6 with rfl | hk7
            · exact d3 rfl
            · exact hk7
        · by_cases hc : trimSpace configPath ≠ ""
          · rw [if_pos hc] at hk5
            simp only [List.mem_singleton] at hk5
            exact d4 hk5
          · rw [if_neg hc] at hk5
            exact (List.not_mem_nil k) hk5
      · by_cases hc : trimSpace exePath ≠ ""
        · rw [if_pos hc] at hk4
          simp only [List.mem_singleton] at hk4
          exact d5 hk4
        · rw [if_neg hc] at hk4
          exact (List.not_mem_nil k) hk4
  · intro kv _
    exact shellQuote_roundTrip kv.2


theorem c5_env_exports_witness :
    ((buildEnvPairs "1" "out/1" cfgC5 [("AKEY", "x y"), ("ZKEY", "v")]
      "" "").map Prod.fst).Nodup ∧
    (buildEnvPairs "1" "out/1" cfgC5 [("AKEY", "x y"), ("ZKEY", "v")]
      "" "").map Prod.fst =
      ([envRunID, envOutputDir, envRunDir] ++
        (if trimSpace "" ≠ "" then [envConfigPath] else []) ++
        (if trimSpace "" ≠ "" then [envBenchctl] else [])) ++
      sortStrings (([("AKEY", "x y"), ("ZKEY", "v")] :
        List (String × String)).map Prod.fst) ∧
    (sortStrings (([("AKEY", "x y"), ("ZKEY", "v")] :
      List (String × String)).map Prod.fst)).Pairwise
      (fun a b => strLeB a b = true) ∧
    (∀ kv ∈ buildEnvPairs "1" "out/1" cfgC5
      [("AKEY", "x y"), ("ZKEY", "v")] "" "",
      shellUnquote (shellQuote kv.2) = some kv.2) ∧
    buildEnvPfx "1" "out/1" cfgC5 [("AKEY", "x y"), ("ZKEY", "v")] "" "" =
      "export " ++ joinWith " "
        ((buildEnvPairs "1" "out/1" cfgC5 [("AKEY", "x y"), ("ZKEY", "v")]
          "" "").map (fun kv => kv.1 ++ "=" ++ shellQuote kv.2)) ++ "; " :=
  c5_env_exports "1" "out/1" cfgC5 [("AKEY", "x y"), ("ZKEY", "v")] "" ""
    (by decide) (by decide)

theorem startBackgroundStage_ok_pid (env : WfEnv)
    (hostAlias envPfx body : String) (stage : Stage) (pid : String)
    (h : startBackgroundStage env hostAlias envPfx body stage = .ok pid) :
    pid ≠ "" := by
  unfold startBackgroundStage at h
  dsimp only at h
  split at h
  · exact absurd h (by simp)
  · split at h
    · exact absurd h (by simp)
    · rename_i hne
      simp only [Except.ok.injEq] at h
      rw [← h]
      exact hne

theorem collectOutputsLoop_no_bgAdd (env : WfEnv) (stage : Stage)
    (hostAlias : String) : ∀ (outs : List Output) (s h p : String),
    Ev.bgAdd s h p ∉ (collectOutputsLoop env stage hostAlias outs).1 := by
  intro outs
  induction outs with
  | nil => intro s h p; simp [collectOutputsLoop]
  | cons o rest ih =>
    intro s h p
    rw [collectOutputsLoop]
    rcases henv : env.scpErr hostAlias o.remotePath with _ | e
    · simp only [List.mem_cons]
      intro hmem
      rcases hmem with hbad | hmem2
      · exact Ev.noConfusion hbad
      · exact ih s h p hmem2
    · simp


theorem mem_optList (b : BgRec) (o : Option BgRec) :
    b ∈ ((o.map (fun x => [x])).getD []) ↔ o = some b := by
  cases o <;> simp
  exact eq_comm

theorem runStageOnHost_pid (env : WfEnv) (cfg : Config)
    (envPfx runID : String) (stage : Stage) (idx : Nat)
    (hostAlias : String) (custom : List (String × String)) :
    (∀ b, (runStageOnHost env cfg envPfx runID stage idx hostAlias
      custom).2.2.1 = some b → b.pid ≠ "") ∧
    (∀ s h p, Ev.bgAdd s h p ∈ (runStageOnHost env cfg envPfx runID stage
      idx hostAlias custom).1 → p ≠ "") := by
  constructor
  · intro b hb
    unfold runStageOnHost at hb
    dsimp only at hb
    split at hb
    · simp at hb
    · split at hb
      · simp at hb
      · split at hb
        · simp at hb
        · split at hb
          · split at hb
            · simp at hb
            · rename_i pid heq
              simp only [Option.some_inj] at hb
              rw [← hb]
              exact startBackgroundStage_ok_pid _ _ _ _ _ _ heq
          · split at hb
            · simp at hb
            · split at hb
              · split at hb
                · simp at hb
                · split at hb
                  · simp at hb
                  · simp at hb
              · split at hb
                · simp at hb
                · simp at hb
  · intro s h p hmem
    unfold runStageOnHost at hmem
    dsimp only at hmem
    split at hmem
    · simp at hmem
    · split at hmem
      · simp at hmem
      · split at hmem
        · simp at hmem
        · split at hmem
          · split at hmem
            · simp at hmem
            · rename_i pid heq
              simp only [List.mem_cons, List.mem_singleton] at hmem
              rcases hmem with hbad | hbad | hbad
              · exact Ev.noConfusion hbad
              · have hp : p = pid := by
                  injection hbad with h1 h2 h3
                rw [hp]
                exact startBackgroundStage_ok_pid _ _ _ _ _ _ heq
              · exact absurd hbad (List.not_mem_nil _)
          · split at hmem
            · simp at hmem
            · split at hmem
              · split at hmem
                · simp at hmem
                · split at hmem
                  · simp only [List.mem_cons] at hmem
                    rcases hmem with hbad | hbad
                    · exact Ev.noConfusion hbad
                    · exact absurd hbad
                        (collectOutputsLoop_no_bgAdd env stage hostAlias
                          stage.outputs s h p)
                  · simp at hmem
              · split at hmem
                · simp only [List.mem_cons] at hmem
                  rcases hmem with hbad | hbad
                  · exact Ev.noConfusion hbad
                  · exact absurd hbad
                      (collectOutputsLoop_no_bgAdd env stage hostAlias
                        stage.outputs s h p)
                · simp at hmem


theorem runStageHosts_pid (env : WfEnv) (cfg : Config)
    (envPfx runID : String) (stage : Stage) :
    ∀ (aliases : List String) (idx : Nat)
      (custom : List (String × String)),
    (∀ b ∈ (runStageHosts env cfg envPfx runID stage idx custom
      aliases).2.2.1, b.pid ≠ "") ∧
    (∀ s h p, Ev.bgAdd s h p ∈ (runStageHosts env cfg envPfx runID stage
      idx custom aliases).1 → p ≠ "") := by
  intro aliases
  induction aliases with
  | nil =>
    intro idx custom
    constructor
    · intro b hb
      simp [runStageHosts] at hb
    · intro s h p hmem
      simp [runStageHosts] at hmem
  | cons a rest ih =>
    intro idx custom
    constructor
    · intro b hb
      unfold runStageHosts at hb
      dsimp only at hb
      split at hb
      · rw [mem_optList] at hb
        exact (runStageOnHost_pid env cfg envPfx runID stage idx a
          custom).1 b hb
      · rcases List.mem_append.mp hb with hb2 | hb2
        · rw [mem_optList] at hb2
          exact (runStageOnHost_pid env cfg envPfx runID stage idx a
            custom).1 b hb2
        · exact (ih (idx + 1) _).1 b hb2
    · intro s h p hmem
      unfold runStageHosts at hmem
      dsimp only at hmem
      split at hmem
      · exact (runStageOnHost_pid env cfg envPfx runID stage idx a
          custom).2 s h p hmem
      · rcases List.mem_append.mp hmem with hm2 | hm2
        · exact (runStageOnHost_pid env cfg envPfx runID stage idx a
            custom).2 s h p hm2
        · exact (ih (idx + 1) _).2 s h p hm2

theorem execStagesLoop_pid (env : WfEnv) (cfg : Config)
    (envPfx runID : String) :
    ∀ (stages : List Stage) (custom : List (String × String)),
    (∀ b ∈ (execStagesLoop env cfg envPfx runID custom
      stages).2.2.1, b.pid ≠ "") ∧
    (∀ s h p, Ev.bgAdd s h p ∈ (execStagesLoop env cfg envPfx runID custom
      stages).1 → p ≠ "") := by
  intro stages
  induction stages with
  | nil =>
    intro custom
    constructor
    · intro b hb
      simp [execStagesLoop] at hb
    · intro s h p hmem
      simp [execStagesLoop] at hmem
  | cons stage rest ih =>
    intro custom
    constructor
    · intro b hb
      unfold execStagesLoop at hb
      dsimp only at hb
      split at hb
      · exact (ih custom).1 b hb
      · split at hb
        · exact (runStageHosts_pid env cfg envPfx runID stage
            (resolveStageHosts stage) 0 custom).1 b hb
        · rcases List.mem_append.mp hb with hb2 | hb2
          · exact (runStageHosts_pid env cfg envPfx runID stage
              (resolveStageHosts stage) 0 custom).1 b hb2
          · exact (ih _).1 b hb2
    · intro s h p hmem
      unfold execStagesLoop at hmem
      dsimp only at hmem
      split at hmem
      · exact (ih custom).2 s h p hmem
      · split at hmem
        · exact (runStageHosts_pid env cfg envPfx runID stage
            (resolveStageHosts stage) 0 custom).2 s h p hmem
        · rcases List.mem_append.mp hmem with hm2 | hm2
          · exact (runStageHosts_pid env cfg envPfx runID stage
              (resolveStageHosts stage) 0 custom).2 s h p hm2
          · exact (ih _).2 s h p hm2

theorem executeStages_pid (env : WfEnv) (cfg : Config)
    (runID runDir : String) (envVars custom : List (String × String)) :
    (∀ b ∈ (executeStages env cfg runID runDir envVars
      custom).2.2.1, b.pid ≠ "") ∧
    (∀ s h p, Ev.bgAdd s h p ∈ (executeStages env cfg runID runDir envVars
      custom).1 → p ≠ "") := by
  unfold executeStages
  by_cases hs : cfg.stages = []
  · rw [if_pos hs]
    constructor
    · intro b hb
      simp at hb
    · intro s h p hmem
      simp at hmem
  · rw [if_neg hs]
    exact execStagesLoop_pid env cfg _ runID cfg.stages custom

theorem stopStage_no_bgAdd (env : WfEnv) (r : BgRec) (s h p : String) :
    Ev.bgAdd s h p ∉ (stopStage env r).1 := by
  unfold stopStage
  cases openClientErr env r.hostAlias r.host <;>
    cases terminatePIDErr env r.stage.name r.pid <;>
      by_cases hl : r.stage.outputs.length > 0 <;>
        simp [hl]
  all_goals
    exact fun hbad =>
      collectOutputsLoop_no_bgAdd env r.stage r.hostAlias
        r.stage.outputs s h p hbad

theorem stopAllModel_no_bgAdd (env : WfEnv) :
    ∀ (records : List BgRec) (s h p : String),
    Ev.bgAdd s h p ∉ (stopAllModel env records).1 := by
  intro records
  induction records with
  | nil => intro s h p; simp [stopAllModel]
  | cons r rs ih =>
    intro s h p
    unfold stopAllModel
    dsimp only
    intro hmem
    rcases List.mem_append.mp hmem with hm | hm
    · exact stopStage_no_bgAdd env r s h p hm
    · exact ih s h p hm


theorem runWorkflowModel_pid (env : WfEnv) (cfg : Config)
    (customMetadata envVars : List (String × String)) (fuel : Nat) :
    (∀ r ∈ (runWorkflowModel env cfg customMetadata envVars
      fuel).bgRecords, r.pid ≠ "") ∧
    (∀ s h p, Ev.bgAdd s h p ∈ (runWorkflowModel env cfg customMetadata
      envVars fuel).events → p ≠ "") := by
  unfold runWorkflowModel
  cases hgen : generateRunID env.statExists cfg.benchmark.outputDir fuel
  case none =>
    constructor
    · intro r hr
      simp at hr
    · intro s h p hmem
      simp at hmem
  case some rid =>
    dsimp only
    constructor
    · intro r hr
      split at hr <;>
        first
          | (exact (executeStages_pid env cfg rid
              (goJoin cfg.benchmark.outputDir rid) envVars
              customMetadata).1 r hr)
          | (split at hr <;>
              first
                | (exact (executeStages_pid env cfg rid
                    (goJoin cfg.benchmark.outputDir rid) envVars
                    customMetadata).1 r hr)
                | (split at hr <;>
                    first
                      | (exact (executeStages_pid env cfg rid
                          (goJoin cfg.benchmark.outputDir rid) envVars
                          customMetadata).1 r hr)
                      | (split at hr <;>
                          exact (executeStages_pid env cfg rid
                            (goJoin cfg.benchmark.outputDir rid) envVars
                            customMetadata).1 r hr)))
    · intro s h p hmem
      have hcore : Ev.bgAdd s h p ∈
          ((executeStages env cfg rid (goJoin cfg.benchmark.outputDir rid)
            envVars customMetadata).1 ++ [Ev.stopAllCalled] ++
            (stopAllModel env (executeStages env cfg rid
              (goJoin cfg.benchmark.outputDir rid) envVars
              customMetadata).2.2.1).1) → p ≠ "" := by
        intro hm
        rcases List.mem_append.mp hm with hm2 | hm2
        · rcases List.mem_append.mp hm2 with hm3 | hm3
          · exact (executeStages_pid env cfg rid
              (goJoin cfg.benchmark.outputDir rid) envVars
              customMetadata).2 s h p hm3
          · simp at hm3
        · exact absurd hm2 (stopAllModel_no_bgAdd env _ s h p)
      split at hmem <;>
        first
          | (rcases List.mem_append.mp hmem with hm | hm
             · exact hcore hm
             · simp at hm)
          | (split at hmem <;>
              first
                | (rcases List.mem_append.mp hmem with hm | hm
                   · exact hcore hm
                   · simp at hm)
                | (split at hmem <;>
                    first
                      | (rcases List.mem_append.mp hmem with hm | hm
                         · exact hcore hm
                         · simp at hm)
                      | (split at hmem <;>
                          (rcases List.mem_append.mp hmem with hm | hm
                           · exact hcore hm
                           · simp at hm))))


/-- C9: the background-manager pid invariant. The pid a background launch
registers is the first whitespace-separated token of the launch output;
an empty or whitespace-only output makes `startBackgroundStage` return the
"pid not captured" error instead of a pid; a successful start never yields
an empty pid; and consequently every background record the workflow
registers (and every registration event it emits) carries a non-empty
pid. -/
theorem c9_bg_pid_invariant (env : WfEnv) (cfg : Config)
    (customMetadata envVars : List (String × String)) (fuel : Nat)
    (hostAlias envPfx body output : String) (stage : Stage) :
    (parsePID output = (fields output).headD "") ∧
    ((∀ c ∈ output.data, goIsSpace c = true) → parsePID output = "") ∧
    (∀ pid, startBackgroundStage env hostAlias envPfx body stage =
      .ok pid → pid ≠ "") ∧
    ((wfRunCommand env hostAlias (envPfx ++ " setsid sh -c " ++
        shellQuote body ++ " >/dev/null 2>&1 & echo $!")).2 = none →
      parsePID (wfRunCommand env hostAlias (envPfx ++ " setsid sh -c " ++
        shellQuote body ++ " >/dev/null 2>&1 & echo $!")).1.output = "" →
      startBackgroundStage env hostAlias envPfx body stage =
        .error ("stage " ++ stage.name ++
          " failed to start background command: pid not captured")) ∧
    (∀ r ∈ (runWorkflowModel env cfg customMetadata envVars
      fuel).bgRecords, r.pid ≠ "") ∧
    (∀ s h p, Ev.bgAdd s h p ∈ (runWorkflowModel env cfg customMetadata
      envVars fuel).events → p ≠ "") := by
  refine ⟨parsePID_eq_headD output, parsePID_whitespace output, ?_, ?_,
    (runWorkflowModel_pid env cfg customMetadata envVars fuel).1,
    (runWorkflowModel_pid env cfg customMetadata envVars fuel).2⟩
  · intro pid h
    exact startBackgroundStage_ok_pid env hostAlias envPfx body stage pid h
  · intro h1 h2
    unfold startBackgroundStage
    dsimp only
    rw [h1, h2]
    rfl


theorem runStageOnHost_success (env : WfEnv) (cfg : Config)
    (pfxv runID : String) (s : Stage) (idx : Nat) (al : String)
    (hostRec : Host) (custom : List (String × String))
    (out : CommandResult)
    (hl : cfg.hosts.lookup al = some hostRec)
    (hop : openClientErr env al hostRec = none)
    (hcmd : trimSpace s.command ≠ "")
    (hbg : s.background = false)
    (ham : s.appendMetadata = false)
    (hhc : s.healthCheck = none)
    (hout : s.outputs = [])
    (hne : trimSpace (pfxv ++ wrapWithShell s.command
      (resolveStageShell cfg s)) ≠ "")
    (hrun : env.runCmd al (pfxv ++ wrapWithShell s.command
      (resolveStageShell cfg s)) = (out, none))
    (hex : out.exitCode = 0) :
    runStageOnHost env cfg pfxv runID s idx al custom =
      ([Ev.runCmd s.name al], custom, none, none) := by
  have hprep : prepareStageCommand env s hostRec runID = .ok s.command := by
    unfold prepareStageCommand
    rw [if_pos hcmd]
  have hwf : wfRunCommand env al (pfxv ++ wrapWithShell s.command
      (resolveStageShell cfg s)) = (out, none) := by
    unfold wfRunCommand
    rw [if_neg hne, hrun]
  unfold runStageOnHost
  dsimp only
  rw [hl]
  rw [if_neg (by simp)]
  dsimp only [Option.getD]
  rw [hop, hprep]
  dsimp only
  rw [hbg]
  simp only [Bool.false_eq_true, if_false]
  rw [hwf]
  dsimp only
  rw [hex, hhc, hout]
  simp [ham]


theorem runStageOnHost_failure (env : WfEnv) (cfg : Config)
    (pfxv runID : String) (s : Stage) (idx : Nat) (al : String)
    (hostRec : Host) (custom : List (String × String))
    (out : CommandResult)
    (hl : cfg.hosts.lookup al = some hostRec)
    (hop : openClientErr env al hostRec = none)
    (hcmd : trimSpace s.command ≠ "")
    (hbg : s.background = false)
    (hne : trimSpace (pfxv ++ wrapWithShell s.command
      (resolveStageShell cfg s)) ≠ "")
    (hrun : env.runCmd al (pfxv ++ wrapWithShell s.command
      (resolveStageShell cfg s)) = (out, none))
    (hex : out.exitCode ≠ 0) :
    runStageOnHost env cfg pfxv runID s idx al custom =
      ([Ev.runCmd s.name al], custom, none,
        some ("stage " ++ s.name ++ " failed: " ++
          ("command exited with code " ++ toString out.exitCode) ++
          " (exit code: " ++ toString out.exitCode ++ ")")) := by
  have hprep : prepareStageCommand env s hostRec runID = .ok s.command := by
    unfold prepareStageCommand
    rw [if_pos hcmd]
  have hwf : wfRunCommand env al (pfxv ++ wrapWithShell s.command
      (resolveStageShell cfg s)) = (out, none) := by
    unfold wfRunCommand
    rw [if_neg hne, hrun]
  unfold runStageOnHost
  dsimp only
  rw [hl]
  rw [if_neg (by simp)]
  dsimp only [Option.getD]
  rw [hop, hprep]
  dsimp only
  rw [hbg]
  simp only [Bool.false_eq_true, if_false]
  rw [hwf]
  dsimp only
  simp [hex]


/-- C3 amended (multi-host fail-fast): for a workflow whose one
foreground stage fans out over hosts [a, b, c] and whose command exits 0
on a and non-zero on b, the run directory is created, host c is never
dispatched (the trace holds exactly the two dispatches to a and b), the
background manager's `StopAll` runs before the error surfaces, the fatal
error names the stage and the exit code — not the failing host — and
`metadata.json` is not written on this failure path. -/
theorem c3_failfast (env : WfEnv) (cfg : Config)
    (custom envVars : List (String × String)) (fuel : Nat)
    (s : Stage) (a b c : String) (ha hb : Host) (rid : String)
    (outA outB : CommandResult)
    (hstages : cfg.stages = [s])
    (hhosts : s.hosts = [a, b, c])
    (hskip : s.skip = false)
    (hbg : s.background = false)
    (ham : s.appendMetadata = false)
    (hhc : s.healthCheck = none)
    (hout : s.outputs = [])
    (hcmd : trimSpace s.command ≠ "")
    (hla : cfg.hosts.lookup a = some ha)
    (hlb : cfg.hosts.lookup b = some hb)
    (hopa : openClientErr env a ha = none)
    (hopb : openClientErr env b hb = none)
    (hgen : generateRunID env.statExists cfg.benchmark.outputDir fuel =
      some rid)
    (hruna : env.runCmd a (buildEnvPfx rid
      (goJoin cfg.benchmark.outputDir rid) cfg envVars env.configPath
      env.exePath ++ wrapWithShell s.command (resolveStageShell cfg s)) =
      (outA, none))
    (hexA : outA.exitCode = 0)
    (hrunb : env.runCmd b (buildEnvPfx rid
      (goJoin cfg.benchmark.outputDir rid) cfg envVars env.configPath
      env.exePath ++ wrapWithShell s.command (resolveStageShell cfg s)) =
      (outB, none))
    (hexB : outB.exitCode ≠ 0) :
    runWorkflowModel env cfg custom envVars fuel =
      { events := [Ev.runCmd s.name a, Ev.runCmd s.name b,
          Ev.stopAllCalled,
          Ev.fatalExit ("workflow failed: " ++ ("stage " ++ s.name ++
            " failed: " ++ ("command exited with code " ++
              toString outB.exitCode) ++ " (exit code: " ++
            toString outB.exitCode ++ ")"))],
        fatalMsg := some ("workflow failed: " ++ ("stage " ++ s.name ++
          " failed: " ++ ("command exited with code " ++
            toString outB.exitCode) ++ " (exit code: " ++
          toString outB.exitCode ++ ")")),
        metadataWritten := false,
        runDirCreated := true,
        runID := some rid,
        custom := custom,
        bgRecords := [] } := by
  have hne : trimSpace (buildEnvPfx rid (goJoin cfg.benchmark.outputDir rid)
      cfg envVars env.configPath env.exePath ++
      wrapWithShell s.command (resolveStageShell cfg s)) ≠ "" := by
    apply trimSpace_ne_empty _ 'e'
    · unfold buildEnvPfx
      simp only [String.data_append, List.mem_append]
      left
      left
      left
      decide
    · decide
  have hstepA := runStageOnHost_success env cfg
    (buildEnvPfx rid (goJoin cfg.benchmark.outputDir rid) cfg envVars
      env.configPath env.exePath) rid s 0 a ha custom outA hla hopa hcmd
    hbg ham hhc hout hne hruna hexA
  have hstepB := runStageOnHost_failure env cfg
    (buildEnvPfx rid (goJoin cfg.benchmark.outputDir rid) cfg envVars
      env.configPath env.exePath) rid s 1 b hb custom outB hlb hopb hcmd
    hbg hne hrunb hexB
  have hres : resolveStageHosts s = [a, b, c] := by
    unfold resolveStageHosts
    rw [hhosts]
    simp
  have hrshBC : runStageHosts env cfg
      (buildEnvPfx rid (goJoin cfg.benchmark.outputDir rid) cfg envVars
        env.configPath env.exePath) rid s 1 custom [b, c] =
      ([Ev.runCmd s.name b], custom, [],
        some ("stage " ++ s.name ++ " failed: " ++
          ("command exited with code " ++ toString outB.exitCode) ++
          " (exit code: " ++ toString outB.exitCode ++ ")")) := by
    unfold runStageHosts
    rw [hstepB]
    simp
  have hrsh : runStageHosts env cfg
      (buildEnvPfx rid (goJoin cfg.benchmark.outputDir rid) cfg envVars
        env.configPath env.exePath) rid s 0 custom [a, b, c] =
      ([Ev.runCmd s.name a, Ev.runCmd s.name b], custom, [],
        some ("stage " ++ s.name ++ " failed: " ++
          ("command exited with code " ++ toString outB.exitCode) ++
          " (exit code: " ++ toString outB.exitCode ++ ")")) := by
    unfold runStageHosts
    rw [hstepA]
    dsimp only
    rw [hrshBC]
    simp
  have hloop : execStagesLoop env cfg
      (buildEnvPfx rid (goJoin cfg.benchmark.outputDir rid) cfg envVars
        env.configPath env.exePath) rid custom [s] =
      ([Ev.runCmd s.name a, Ev.runCmd s.name b], custom, [],
        some ("stage " ++ s.name ++ " failed: " ++
          ("command exited with code " ++ toString outB.exitCode) ++
          " (exit code: " ++ toString outB.exitCode ++ ")")) := by
    unfold execStagesLoop
    rw [hskip]
    simp only [Bool.false_eq_true, if_false]
    rw [hres, hrsh]
  have hexec : executeStages env cfg rid
      (goJoin cfg.benchmark.outputDir rid) envVars custom =
      ([Ev.runCmd s.name a, Ev.runCmd s.name b], custom, [],
        some ("stage " ++ s.name ++ " failed: " ++
          ("command exited with code " ++ toString outB.exitCode) ++
          " (exit code: " ++ toString outB.exitCode ++ ")")) := by
    unfold executeStages
    rw [hstages]
    rw [if_neg (by simp)]
    exact hloop
  unfold runWorkflowModel
  rw [hgen]
  dsimp only
  rw [hexec]
  dsimp only
  rw [stopAllModel]
  simp


set_option maxRecDepth 10000 in
/-- C3 counterexample: in the fail-on-second-host scenario the workflow
does abort before host C and does run `StopAll` first, but the surfaced
error names the stage (not host B — the alias appears nowhere in the
message) and `metadata.json` is never written on the failure path. -/
theorem c3_counterexample :
    (runWorkflowModel envC3 cfgC3 [] [] 1).metadataWritten = false ∧
    (runWorkflowModel envC3 cfgC3 [] [] 1).fatalMsg =
      some "workflow failed: stage s1 failed: command exited with code 1 (exit code: 1)" ∧
    ¬ ("hostB".data <:+:
      "workflow failed: stage s1 failed: command exited with code 1 (exit code: 1)".data) := by
  decide

theorem c3_failfast_witness :
    runWorkflowModel envC3 cfgC3 [] [] 1 =
      { events := [Ev.runCmd "s1" "hostA", Ev.runCmd "s1" "hostB",
          Ev.stopAllCalled,
          Ev.fatalExit ("workflow failed: " ++ ("stage " ++ "s1" ++
            " failed: " ++ ("command exited with code " ++
              toString (1 : Int)) ++ " (exit code: " ++
            toString (1 : Int) ++ ")"))],
        fatalMsg := some ("workflow failed: " ++ ("stage " ++ "s1" ++
          " failed: " ++ ("command exited with code " ++
            toString (1 : Int)) ++ " (exit code: " ++
          toString (1 : Int) ++ ")")),
        metadataWritten := false,
        runDirCreated := true,
        runID := some "1",
        custom := [],
        bgRecords := [] } :=
  c3_failfast envC3 cfgC3 [] [] 1 stageC3 "hostA" "hostB" "hostC" {} {}
    "1" { output := "", exitCode := 0 } { output := "", exitCode := 1 }
    (by decide) (by decide) (by decide) (by decide) (by decide) (by decide)
    (by decide) (by decide) (by decide) (by decide) (by decide) (by decide)
    (by decide) (by decide) (by decide) (by decide) (by decide)

end Benchctl
